import Mathlib

/-
Verification of the Alignment-API → SSSOM converter (OAEITTL2SSSOM.py).

The Python program is shallowly embedded: an RDF graph is a list of
triples (the list order models the iteration order of the in-memory
triple store), `rdflib.Graph.value` is the first matching triple,
`Graph.add` inserts a triple unless it is already present, and the two
runtime services the converter calls (`hash` on an entity pair and
`float` on a string) are parameters of the embedding.
-/

namespace EvolAlign

/-- RDF node as used by the converter: an IRI reference, a literal with an
optional datatype IRI, or a blank node.  In the Python library URIRef,
Literal and BNode are all `str` subclasses, so `str()` of any of these
returns the stored string (IRI text, lexical form, or blank-node id). -/
inductive Node where
  | uri (s : String)
  | lit (s : String) (dt : Option String)
  | blank (s : String)
deriving DecidableEq

/-- One RDF triple (subject, predicate, object). -/
structure Triple where
  s : Node
  p : Node
  o : Node
deriving DecidableEq

/-- Python `str()` on an RDF term. -/
def pyStr : Node → String
  | Node.uri s => s
  | Node.lit s _ => s
  | Node.blank s => s

/-- Python truthiness of an optional RDF term: `None` is falsy, and the
term classes are `str` subclasses, so a term is truthy iff nonempty. -/
def pyTruthy : Option Node → Bool
  | none => false
  | some n => decide (pyStr n ≠ "")

def RDF_type : Node := Node.uri ("http://www.w3.org/1999/02/22-rdf-syntax-ns#type")
def OWL_Ontology : Node := Node.uri ("http://www.w3.org/2002/07/owl#Ontology")
def XSD_double : String := "http://www.w3.org/2001/XMLSchema#double"
def SKOS_exactMatch : Node := Node.uri ("http://www.w3.org/2004/02/skos/core#exactMatch")
def SKOS_relatedMatch : Node := Node.uri ("http://www.w3.org/2004/02/skos/core#relatedMatch")
def SSSOM_MappingSet : Node := Node.uri ("https://w3id.org/sssom/MappingSet")
def SSSOM_Mapping : Node := Node.uri ("https://w3id.org/sssom/Mapping")
def SSSOM_record_id : Node := Node.uri ("https://w3id.org/sssom/record_id")
def SSSOM_subject_id : Node := Node.uri ("https://w3id.org/sssom/subject_id")
def SSSOM_predicate_id : Node := Node.uri ("https://w3id.org/sssom/predicate_id")
def SSSOM_object_id : Node := Node.uri ("https://w3id.org/sssom/object_id")
def SSSOM_confidence : Node := Node.uri ("https://w3id.org/sssom/confidence")
def SSSOM_mapping_justification : Node := Node.uri ("https://w3id.org/sssom/mapping_justification")
def SSSOM_subject_source : Node := Node.uri ("https://w3id.org/sssom/subject_source")
def SSSOM_object_source : Node := Node.uri ("https://w3id.org/sssom/object_source")
def SSSOM_mappings : Node := Node.uri ("https://w3id.org/sssom/mappings")
def SEMAPV_UnspecifiedMatching : Node := Node.uri ("https://w3id.org/semapv/vocab/UnspecifiedMatching")

/-- The characters after the last occurrence of `c` (the whole list when
`c` does not occur): Python `s.rsplit(c, 1)[-1]`. -/
def afterLast (c : Char) (cs : List Char) : List Char :=
  (cs.reverse.takeWhile (fun x => x ≠ c)).reverse

/-- `local_name` from the source: the substring after the last `#`, or,
when no `#` is present, strip trailing `/` and take the substring after
the last `/`. -/
def local_name (u : String) : String :=
  let cs := u.data
  if ('#') ∈ cs then String.mk (afterLast ('#') cs)
  else String.mk (afterLast ('/') ((cs.reverse.dropWhile (fun x => x = ('/'))).reverse))

/-- Python `str.endswith`. -/
def endswith (s sfx : String) : Bool := decide (sfx.data <:+ s.data)

def str_onto1 : String := "onto1"
def str_onto2 : String := "onto2"
def str_map : String := "map"
def str_entity1 : String := "entity1"
def str_entity2 : String := "entity2"
def str_measure : String := "measure"
def str_relation : String := "relation"
def str_cid : String := "cid"
def str_Alignment : String := "Alignment"
def str_Cell : String := "Cell"

/-- The role → IRI dictionary returned by `find_predicates_and_classes`;
every slot starts out as `None`. -/
structure Preds where
  onto1 : Option Node := none
  onto2 : Option Node := none
  map : Option Node := none
  entity1 : Option Node := none
  entity2 : Option Node := none
  measure : Option Node := none
  relation : Option Node := none
  cid : Option Node := none
  alignment_class : Option Node := none
  cell_class : Option Node := none
deriving DecidableEq

/-- Python `preds.get(k)` on the returned dictionary. -/
def Preds.get (preds : Preds) (k : String) : Option Node :=
  if k = str_onto1 then preds.onto1
  else if k = str_onto2 then preds.onto2
  else if k = str_map then preds.map
  else if k = str_entity1 then preds.entity1
  else if k = str_entity2 then preds.entity2
  else if k = str_measure then preds.measure
  else if k = str_relation then preds.relation
  else if k = str_cid then preds.cid
  else if k = str_Alignment then preds.alignment_class
  else if k = str_Cell then preds.cell_class
  else none

/-- The body of the discovery loop in `find_predicates_and_classes`, run
once per triple: classify the predicate by the suffix of its local name
(an elif chain, so the first matching suffix wins for this triple and a
later triple overwrites an earlier assignment), then classify the object
of an `rdf:type` triple whose object is an IRI by the suffixes
`Alignment` / `Cell`. -/
def discover_pred_step (st : Preds) (t : Triple) : Preds :=
  let lname_p := local_name (pyStr t.p)
  if endswith lname_p str_onto1 then { st with onto1 := some t.p }
  else if endswith lname_p str_onto2 then { st with onto2 := some t.p }
  else if endswith lname_p str_map then { st with map := some t.p }
  else if endswith lname_p str_entity1 then { st with entity1 := some t.p }
  else if endswith lname_p str_entity2 then { st with entity2 := some t.p }
  else if endswith lname_p str_measure then { st with measure := some t.p }
  else if endswith lname_p str_relation then { st with relation := some t.p }
  else if endswith lname_p str_cid then { st with cid := some t.p }
  else st

def discover_class_step (st1 : Preds) (t : Triple) : Preds :=
  if t.p = RDF_type then
    match t.o with
    | Node.uri so =>
        let lname_o := local_name so
        if endswith lname_o str_Alignment then { st1 with alignment_class := some (Node.uri so) }
        else if endswith lname_o str_Cell then { st1 with cell_class := some (Node.uri so) }
        else st1
    | _ => st1
  else st1

def discover_step (st : Preds) (t : Triple) : Preds :=
  discover_class_step (discover_pred_step st t) t

/-- `find_predicates_and_classes`: scan every triple once. -/
def find_predicates_and_classes (g : List Triple) : Preds :=
  g.foldl discover_step {}

/-- `required_keys` from `convert_alignment_file` (cid is optional; note
that the Cell class is not in this list either). -/
def required_keys : List String :=
  [str_onto1, str_onto2, str_map, str_entity1, str_entity2, str_measure, str_relation,
    str_Alignment]

/-- `rdflib.Graph.value(s, p)`: the object of the first matching triple. -/
def value (g : List Triple) (s p : Node) : Option Node :=
  (g.find? (fun t => decide (t.s = s ∧ t.p = p))).map Triple.o

/-- `g.value(s, p)` where the predicate may be `None` (the converter only
queries with a `None` predicate for the optional cid role; for the
other roles the discovered predicate is guaranteed present by the
missing-roles guard). -/
def valueOpt (g : List Triple) (s : Node) (p : Option Node) : Option Node :=
  match p with
  | none => none
  | some p => value g s p

/-- `rdflib.Graph.objects(s, p)`: the objects of all matching triples.
The `none` branch is unreachable in the converter: it is only called
with the discovered map predicate, present by the missing-roles guard. -/
def objectsOpt (g : List Triple) (s : Node) (p : Option Node) : List Node :=
  match p with
  | some p => (g.filter (fun t => decide (t.s = s ∧ t.p = p))).map Triple.o
  | none => []

/-- `set(s for s, _, _ in g.triples((None, RDF.type, alignment_class)))`:
the distinct subjects typed with the discovered Alignment class.  The
`none` case of the class cannot match any triple. -/
def alignmentsOf (g : List Triple) (ac : Option Node) : List Node :=
  ((g.filter (fun t => decide (t.p = RDF_type ∧ some t.o = ac))).map Triple.s).dedup

/-- Runtime services of the Python interpreter used by the converter:
`hash` on the (entity1, entity2) pair, and `float()` conversion of a
string — `float s = some lex` models a successful conversion whose
resulting value is stored with lexical form `lex` in the produced
xsd:double literal, and `none` models the `ValueError` branch. -/
structure PyEnv where
  hash : Node × Node → Int
  float : String → Option String

/-- `str(cid_val) if isinstance(cid_val, Literal) else (cid_val and
str(cid_val)) or ""`. -/
def cid_str_of : Option Node → String
  | some (Node.lit sv _) => sv
  | some n => if pyStr n = "" then "" else pyStr n
  | none => ""

/-- Build the mapping IRI: `<msi>#m<cid_str>` when the cid string is
nonempty, else the `abs(hash((subj, obj)))` fallback. -/
def mapping_node_of (env : PyEnv) (msi : String) (cid_str : String) (subj obj : Node) : Node :=
  if cid_str = "" then
    Node.uri (msi ++ "#m" ++ Nat.repr (Int.natAbs (env.hash (subj, obj))))
  else Node.uri (msi ++ "#m" ++ cid_str)

/-- Map Alignment `"="` to skos:exactMatch, otherwise skos:relatedMatch
(`isinstance(rel, Literal) and str(rel) == "="`). -/
def pred_uri_of : Option Node → Node
  | some (Node.lit sv _) => if sv = "=" then SKOS_exactMatch else SKOS_relatedMatch
  | _ => SKOS_relatedMatch

/-- `rdflib.Graph.add`: insert the triple unless already present (the
store is a set; we append at the end to fix an iteration order). -/
def addT (g : List Triple) (t : Triple) : List Triple :=
  if t ∈ g then g else g ++ [t]

/-- The mutable locals of `convert_alignment_file` that live across the
alignment/cell loops. -/
structure ConvState where
  g_out : List Triple
  all_mapping_nodes : List Node
  subj_source : Option Node
  obj_source : Option Node
deriving DecidableEq

/-- The body of the cell loop: read the cell's values, drop the cell when
entity1 or entity2 is missing, otherwise build the mapping IRI, append
it to `all_mapping_nodes` and add the SSSOM triples. -/
def processCell (env : PyEnv) (g_in : List Triple) (preds : Preds) (msi : String)
    (st : ConvState) (cell : Node) : ConvState :=
  let cid_val := valueOpt g_in cell preds.cid
  let subj := valueOpt g_in cell preds.entity1
  let obj := valueOpt g_in cell preds.entity2
  let measure := valueOpt g_in cell preds.measure
  let rel := valueOpt g_in cell preds.relation
  match subj, obj with
  | some subj, some obj =>
      let cid_str := cid_str_of cid_val
      let mapping_node := mapping_node_of env msi cid_str subj obj
      let go := addT st.g_out (Triple.mk mapping_node RDF_type SSSOM_Mapping)
      let go := if cid_str = "" then go
        else addT go (Triple.mk mapping_node SSSOM_record_id (Node.lit cid_str none))
      let go := addT go (Triple.mk mapping_node SSSOM_subject_id subj)
      let go := addT go (Triple.mk mapping_node SSSOM_predicate_id (pred_uri_of rel))
      let go := addT go (Triple.mk mapping_node SSSOM_object_id obj)
      let go := match measure with
        | none => go
        | some m =>
            match env.float (pyStr m) with
            | some lex => addT go (Triple.mk mapping_node SSSOM_confidence
                (Node.lit lex (some XSD_double)))
            | none => go
      let go := addT go (Triple.mk mapping_node SSSOM_mapping_justification
        SEMAPV_UnspecifiedMatching)
      { st with g_out := go, all_mapping_nodes := st.all_mapping_nodes ++ [mapping_node] }
  | _, _ => st

/-- The body of the alignment loop: record first-seen truthy onto1/onto2
values as subject/object source, then process each cell reached via the
map predicate. -/
def processAlignment (env : PyEnv) (g_in : List Triple) (preds : Preds) (msi : String)
    (st : ConvState) (aln : Node) : ConvState :=
  let s1 := valueOpt g_in aln preds.onto1
  let s2 := valueOpt g_in aln preds.onto2
  let st1 := if pyTruthy s1 = true ∧ st.subj_source = none then { st with subj_source := s1 }
    else st
  let st2 := if pyTruthy s2 = true ∧ st1.obj_source = none then { st1 with obj_source := s2 }
    else st1
  (objectsOpt g_in aln preds.map).foldl (processCell env g_in preds msi) st2

/-- One mapping set per file: `http://example.org/mappings/<stem>`. -/
def mapping_set_iri_of (stem : String) : String := "http://example.org/mappings/" ++ stem

/-- The two `rdf:type` triples asserted on the mapping set IRI. -/
def seedOut (msiN : Node) : List Triple :=
  addT (addT [] (Triple.mk msiN RDF_type OWL_Ontology)) (Triple.mk msiN RDF_type SSSOM_MappingSet)

/-- The main generation phase of `convert_alignment_file`, run after the
guards have passed: fold the alignment loop, then attach the sources
and link every distinct mapping node from the mapping set. -/
def convert_core (env : PyEnv) (stem : String) (g_in : List Triple) (preds : Preds)
    (alignments : List Node) : List Triple :=
  let msi := mapping_set_iri_of stem
  let msiN := Node.uri msi
  let st0 : ConvState := ConvState.mk (seedOut msiN) [] none none
  let st := alignments.foldl (processAlignment env g_in preds msi) st0
  let go := match st.subj_source with
    | some sv => addT st.g_out (Triple.mk msiN SSSOM_subject_source sv)
    | none => st.g_out
  let go := match st.obj_source with
    | some sv => addT go (Triple.mk msiN SSSOM_object_source sv)
    | none => go
  (st.all_mapping_nodes.dedup).foldl (fun acc m => addT acc (Triple.mk msiN SSSOM_mappings m)) go

/-- Result of `convert_alignment_file` on a successfully parsed graph:
either a skip with its warning (the list of missing role names, or no
Alignment instances found), or the output graph written to disk. -/
inductive ConvertResult where
  | skippedMissing (missing : List String)
  | skippedNoAlignments
  | wrote (g_out : List Triple)
deriving DecidableEq

/-- `convert_alignment_file` on a parsed graph: discovery, the two skip
guards, then the generation phase. -/
def convert_graph (env : PyEnv) (stem : String) (g_in : List Triple) : ConvertResult :=
  let preds := find_predicates_and_classes g_in
  let missing := required_keys.filter (fun k => (Preds.get preds k).isNone)
  if missing ≠ [] then ConvertResult.skippedMissing missing
  else
    let alignments := alignmentsOf g_in preds.alignment_class
    if alignments = [] then ConvertResult.skippedNoAlignments
    else ConvertResult.wrote (convert_core env stem g_in preds alignments)

deriving instance DecidableEq for Except

/-- An input `.ttl` file: its stem and the result of the Turtle parse —
a graph, or the message of the parse exception `rdflib` raises on
malformed input. -/
structure TtlFile where
  stem : String
  parsed : Except String (List Triple)
deriving DecidableEq

/-- `convert_alignment_file` for one file: `g_in.parse` has no handler,
so a parse error propagates to the caller. -/
def convert_alignment_file (env : PyEnv) (f : TtlFile) : Except String ConvertResult :=
  match f.parsed with
  | Except.error e => Except.error e
  | Except.ok g => Except.ok (convert_graph env f.stem g)

/-- The output files a single conversion result writes:
`<stem>_sssom.ttl` with the serialized graph, or nothing on a skip. -/
def outputsOf (stem : String) (r : ConvertResult) : List (String × List Triple) :=
  match r with
  | ConvertResult.wrote g => [(stem ++ "_sssom.ttl", g)]
  | _ => []

/-- The batch driver `main`: process the (sorted) file list in order.
There is no exception handler around the per-file call, so the first
file whose parse raises aborts the loop: its error is returned and no
later file is processed. -/
def runBatch (env : PyEnv) : List TtlFile → List (String × List Triple) × Option String
  | [] => ([], none)
  | f :: rest =>
    match convert_alignment_file env f with
    | Except.error e => ([], some e)
    | Except.ok r =>
        let restRes := runBatch env rest
        (outputsOf f.stem r ++ restRes.1, restRes.2)

/-- Projection of a conversion result to the written graph (empty on a
skip); used to state concrete instances. -/
def outOf : ConvertResult → List Triple
  | ConvertResult.wrote g => g
  | _ => []

/-! ### Specification-level views of the generation phase

These definitions restate, per cell, which triples and which mapping
node the cell-loop body produces; they are related to `processCell` by
the lemmas below. -/

/-- The triples the cell-loop body adds for one cell (empty when entity1
or entity2 is missing). -/
def cellTriples (env : PyEnv) (g_in : List Triple) (preds : Preds) (msi : String)
    (cell : Node) : List Triple :=
  match valueOpt g_in cell preds.entity1, valueOpt g_in cell preds.entity2 with
  | some subj, some obj =>
      let cid_str := cid_str_of (valueOpt g_in cell preds.cid)
      let mapping_node := mapping_node_of env msi cid_str subj obj
      [Triple.mk mapping_node RDF_type SSSOM_Mapping]
      ++ (if cid_str = "" then []
          else [Triple.mk mapping_node SSSOM_record_id (Node.lit cid_str none)])
      ++ [Triple.mk mapping_node SSSOM_subject_id subj,
          Triple.mk mapping_node SSSOM_predicate_id
            (pred_uri_of (valueOpt g_in cell preds.relation)),
          Triple.mk mapping_node SSSOM_object_id obj]
      ++ (match valueOpt g_in cell preds.measure with
          | none => []
          | some m =>
              match env.float (pyStr m) with
              | some lex => [Triple.mk mapping_node SSSOM_confidence
                  (Node.lit lex (some XSD_double))]
              | none => [])
      ++ [Triple.mk mapping_node SSSOM_mapping_justification SEMAPV_UnspecifiedMatching]
  | _, _ => []

/-- The mapping node generated for one cell (`none` when the cell is
incomplete and therefore dropped). -/
def cellMappingNode (env : PyEnv) (g_in : List Triple) (preds : Preds) (msi : String)
    (cell : Node) : Option Node :=
  match valueOpt g_in cell preds.entity1, valueOpt g_in cell preds.entity2 with
  | some subj, some obj =>
      some (mapping_node_of env msi (cid_str_of (valueOpt g_in cell preds.cid)) subj obj)
  | _, _ => none

/-- All mapping nodes generated for a file, in processing order (one per
complete cell occurrence). -/
def mappingNodesSpec (env : PyEnv) (g_in : List Triple) (preds : Preds) (msi : String)
    (alignments : List Node) : List Node :=
  alignments.flatMap (fun aln =>
    (objectsOpt g_in aln preds.map).filterMap (cellMappingNode env g_in preds msi))

/-- The complete cell occurrences of a file: cells reached from an
alignment via the map predicate whose entity1 and entity2 are present. -/
def completeCells (g_in : List Triple) (preds : Preds) (alignments : List Node) : List Node :=
  alignments.flatMap (fun aln =>
    (objectsOpt g_in aln preds.map).filter (fun c =>
      (valueOpt g_in c preds.entity1).isSome && (valueOpt g_in c preds.entity2).isSome))

/-- The subjects of the `rdf:type sssom:Mapping` triples of a graph (one
entry per such triple). -/
def mappingSubjects (g : List Triple) : List Node :=
  (g.filter (fun t => decide (t.p = RDF_type ∧ t.o = SSSOM_Mapping))).map Triple.s

/-- How many distinct resources a graph types as `sssom:Mapping`. -/
def mappingResourceCount (g : List Triple) : Nat := (mappingSubjects g).dedup.length

/-- The state after the alignment loop of the generation phase. -/
def finalConvState (env : PyEnv) (stem : String) (g_in : List Triple) (preds : Preds)
    (alignments : List Node) : ConvState :=
  alignments.foldl (processAlignment env g_in preds (mapping_set_iri_of stem))
    (ConvState.mk (seedOut (Node.uri (mapping_set_iri_of stem))) [] none none)

/-! ### Membership lemmas for the output graph -/

theorem mem_addT {g : List Triple} {t a : Triple} : a ∈ addT g t ↔ a ∈ g ∨ a = t := by
  unfold addT
  by_cases h : t ∈ g
  · simp only [if_pos h]
    constructor
    · exact Or.inl
    · rintro (ha | rfl)
      · exact ha
      · exact h
  · simp [if_neg h]

theorem mem_processCell {env : PyEnv} {g_in : List Triple} {preds : Preds} {msi : String}
    {st : ConvState} {cell : Node} {t : Triple} :
    t ∈ (processCell env g_in preds msi st cell).g_out ↔
      t ∈ st.g_out ∨ t ∈ cellTriples env g_in preds msi cell := by
  unfold processCell cellTriples
  cases h1 : valueOpt g_in cell preds.entity1 with
  | none => cases h2 : valueOpt g_in cell preds.entity2 <;> simp [h1, h2]
  | some subj =>
    cases h2 : valueOpt g_in cell preds.entity2 with
    | none => simp [h1, h2]
    | some obj =>
      simp only [h1, h2]
      by_cases hc : cid_str_of (valueOpt g_in cell preds.cid) = "" <;>
        cases hm : valueOpt g_in cell preds.measure with
      | none => simp [hc, hm, mem_addT]; tauto
      | some m =>
        cases hf : env.float (pyStr m) with
        | none => simp [hc, hm, hf, mem_addT]; tauto
        | some lex => simp [hc, hm, hf, mem_addT]; tauto

theorem nodes_processCell {env : PyEnv} {g_in : List Triple} {preds : Preds} {msi : String}
    {st : ConvState} {cell : Node} :
    (processCell env g_in preds msi st cell).all_mapping_nodes =
      st.all_mapping_nodes ++ (cellMappingNode env g_in preds msi cell).toList := by
  unfold processCell cellMappingNode
  cases h1 : valueOpt g_in cell preds.entity1 <;>
    cases h2 : valueOpt g_in cell preds.entity2 <;> simp [h1, h2]

theorem mem_foldl_cells {env : PyEnv} {g_in : List Triple} {preds : Preds} {msi : String}
    (cells : List Node) (st : ConvState) (t : Triple) :
    t ∈ (cells.foldl (processCell env g_in preds msi) st).g_out ↔
      t ∈ st.g_out ∨ ∃ c ∈ cells, t ∈ cellTriples env g_in preds msi c := by
  induction cells generalizing st with
  | nil => simp
  | cons c rest ih =>
    simp only [List.foldl_cons, ih, mem_processCell, List.mem_cons]
    constructor
    · rintro (⟨h | h⟩ | ⟨x, hx, ht⟩)
      · exact Or.inl h
      · exact Or.inr ⟨c, Or.inl rfl, h⟩
      · exact Or.inr ⟨x, Or.inr hx, ht⟩
    · rintro (h | ⟨x, rfl | hx, ht⟩)
      · exact Or.inl (Or.inl h)
      · exact Or.inl (Or.inr ht)
      · exact Or.inr ⟨x, hx, ht⟩

theorem nodes_foldl_cells {env : PyEnv} {g_in : List Triple} {preds : Preds} {msi : String}
    (cells : List Node) (st : ConvState) :
    (cells.foldl (processCell env g_in preds msi) st).all_mapping_nodes =
      st.all_mapping_nodes ++ cells.filterMap (cellMappingNode env g_in preds msi) := by
  induction cells generalizing st with
  | nil => simp
  | cons c rest ih =>
    simp only [List.foldl_cons, ih, nodes_processCell]
    cases h : cellMappingNode env g_in preds msi c <;> simp [h]

theorem mem_processAlignment {env : PyEnv} {g_in : List Triple} {preds : Preds} {msi : String}
    {st : ConvState} {aln : Node} {t : Triple} :
    t ∈ (processAlignment env g_in preds msi st aln).g_out ↔
      t ∈ st.g_out ∨ ∃ c ∈ objectsOpt g_in aln preds.map, t ∈ cellTriples env g_in preds msi c := by
  unfold processAlignment
  rw [mem_foldl_cells]
  split_ifs <;> simp

theorem nodes_processAlignment {env : PyEnv} {g_in : List Triple} {preds : Preds} {msi : String}
    {st : ConvState} {aln : Node} :
    (processAlignment env g_in preds msi st aln).all_mapping_nodes =
      st.all_mapping_nodes ++
        (objectsOpt g_in aln preds.map).filterMap (cellMappingNode env g_in preds msi) := by
  unfold processAlignment
  rw [nodes_foldl_cells]
  split_ifs <;> simp

theorem mem_foldl_alignments {env : PyEnv} {g_in : List Triple} {preds : Preds} {msi : String}
    (alignments : List Node) (st : ConvState) (t : Triple) :
    t ∈ (alignments.foldl (processAlignment env g_in preds msi) st).g_out ↔
      t ∈ st.g_out ∨ ∃ a ∈ alignments, ∃ c ∈ objectsOpt g_in a preds.map,
        t ∈ cellTriples env g_in preds msi c := by
  induction alignments generalizing st with
  | nil => simp
  | cons a rest ih =>
    simp only [List.foldl_cons, ih, mem_processAlignment, List.mem_cons]
    constructor
    · rintro (⟨h | h⟩ | ⟨x, hx, ht⟩)
      · exact Or.inl h
      · exact Or.inr ⟨a, Or.inl rfl, h⟩
      · exact Or.inr ⟨x, Or.inr hx, ht⟩
    · rintro (h | ⟨x, rfl | hx, ht⟩)
      · exact Or.inl (Or.inl h)
      · exact Or.inl (Or.inr ht)
      · exact Or.inr ⟨x, hx, ht⟩

theorem nodes_foldl_alignments {env : PyEnv} {g_in : List Triple} {preds : Preds} {msi : String}
    (alignments : List Node) (st : ConvState) :
    (alignments.foldl (processAlignment env g_in preds msi) st).all_mapping_nodes =
      st.all_mapping_nodes ++ alignments.flatMap (fun a =>
        (objectsOpt g_in a preds.map).filterMap (cellMappingNode env g_in preds msi)) := by
  induction alignments generalizing st with
  | nil => simp
  | cons a rest ih => simp [List.foldl_cons, ih, nodes_processAlignment]

theorem finalConvState_nodes {env : PyEnv} {stem : String} {g_in : List Triple} {preds : Preds}
    {alignments : List Node} :
    (finalConvState env stem g_in preds alignments).all_mapping_nodes =
      mappingNodesSpec env g_in preds (mapping_set_iri_of stem) alignments := by
  unfold finalConvState mappingNodesSpec
  rw [nodes_foldl_alignments]
  simp

theorem seedOut_eq (msiN : Node) :
    seedOut msiN = [Triple.mk msiN RDF_type OWL_Ontology, Triple.mk msiN RDF_type SSSOM_MappingSet] := by
  unfold seedOut addT
  have h1 : Triple.mk msiN RDF_type OWL_Ontology ∉ ([] : List Triple) := by simp
  have h2 : ¬ Triple.mk msiN RDF_type SSSOM_MappingSet ∈
      (if Triple.mk msiN RDF_type OWL_Ontology ∈ ([] : List Triple) then ([] : List Triple)
        else [] ++ [Triple.mk msiN RDF_type OWL_Ontology]) := by
    simp [Triple.mk.injEq]
    decide
  rw [if_neg h2]
  simp

theorem mem_foldl_links (ms : List Node) (go : List Triple) (msiN : Node) (t : Triple) :
    t ∈ ms.foldl (fun acc m => addT acc (Triple.mk msiN SSSOM_mappings m)) go ↔
      t ∈ go ∨ ∃ m ∈ ms, t = Triple.mk msiN SSSOM_mappings m := by
  induction ms generalizing go with
  | nil => simp
  | cons m rest ih =>
    simp only [List.foldl_cons, ih, mem_addT, List.mem_cons]
    constructor
    · rintro (⟨h | h⟩ | ⟨x, hx, ht⟩)
      · exact Or.inl h
      · exact Or.inr ⟨m, Or.inl rfl, h⟩
      · exact Or.inr ⟨x, Or.inr hx, ht⟩
    · rintro (h | ⟨x, rfl | hx, ht⟩)
      · exact Or.inl (Or.inl h)
      · exact Or.inl (Or.inr ht)
      · exact Or.inr ⟨x, hx, ht⟩

/-- The vocabulary constants are pairwise distinct IRIs; this list of
disequalities discharges the triple-shape case splits below. -/
theorem vocabNe :
    RDF_type ≠ SSSOM_record_id ∧ RDF_type ≠ SSSOM_subject_id ∧ RDF_type ≠ SSSOM_predicate_id ∧
    RDF_type ≠ SSSOM_object_id ∧ RDF_type ≠ SSSOM_confidence ∧
    RDF_type ≠ SSSOM_mapping_justification ∧ RDF_type ≠ SSSOM_subject_source ∧
    RDF_type ≠ SSSOM_object_source ∧ RDF_type ≠ SSSOM_mappings ∧
    SSSOM_Mapping ≠ OWL_Ontology ∧ SSSOM_Mapping ≠ SSSOM_MappingSet ∧
    SKOS_exactMatch ≠ SKOS_relatedMatch ∧ SSSOM_confidence ≠ SSSOM_record_id ∧
    SSSOM_confidence ≠ SSSOM_subject_id ∧ SSSOM_confidence ≠ SSSOM_predicate_id ∧
    SSSOM_confidence ≠ SSSOM_object_id ∧ SSSOM_confidence ≠ SSSOM_mapping_justification ∧
    SSSOM_record_id ≠ SSSOM_subject_id ∧ SSSOM_record_id ≠ SSSOM_predicate_id ∧
    SSSOM_record_id ≠ SSSOM_object_id ∧ SSSOM_record_id ≠ SSSOM_mapping_justification ∧
    SSSOM_record_id ≠ SSSOM_confidence := by
  refine ⟨?_, ?_, ?_, ?_, ?_, ?_, ?_, ?_, ?_, ?_, ?_, ?_, ?_, ?_, ?_, ?_, ?_, ?_, ?_, ?_, ?_, ?_⟩
    <;> decide

/-- A triple of the shape (n, rdf:type, sssom:Mapping) occurs among a
cell's emitted triples exactly when the cell is complete and n is its
generated mapping node. -/
theorem type_mem_cellTriples {env : PyEnv} {g_in : List Triple} {preds : Preds} {msi : String}
    {cell : Node} {n : Node} :
    Triple.mk n RDF_type SSSOM_Mapping ∈ cellTriples env g_in preds msi cell ↔
      cellMappingNode env g_in preds msi cell = some n := by
  obtain ⟨h1, h2, h3, h4, h5, h6, h7, h8, h9, h10, h11, h12, _⟩ := vocabNe
  unfold cellTriples cellMappingNode
  cases e1 : valueOpt g_in cell preds.entity1 with
  | none => cases e2 : valueOpt g_in cell preds.entity2 <;> simp
  | some subj =>
    cases e2 : valueOpt g_in cell preds.entity2 with
    | none => simp
    | some obj =>
      simp only []
      by_cases hc : cid_str_of (valueOpt g_in cell preds.cid) = "" <;>
        cases hm : valueOpt g_in cell preds.measure with
      | none =>
        simp [hc, hm, Triple.mk.injEq, h1, h2, h3, h4, h5, h6, eq_comm]
      | some m =>
        cases hf : env.float (pyStr m) with
        | none => simp [hc, hm, hf, Triple.mk.injEq, h1, h2, h3, h4, h5, h6, eq_comm]
        | some lex => simp [hc, hm, hf, Triple.mk.injEq, h1, h2, h3, h4, h5, h6, eq_comm]

/-- For a complete cell the predicate_id triple is among its emitted
triples. -/
theorem predicate_id_mem_cellTriples {env : PyEnv} {g_in : List Triple} {preds : Preds}
    {msi : String} {cell subj obj : Node}
    (e1 : valueOpt g_in cell preds.entity1 = some subj)
    (e2 : valueOpt g_in cell preds.entity2 = some obj) :
    Triple.mk (mapping_node_of env msi (cid_str_of (valueOpt g_in cell preds.cid)) subj obj)
        SSSOM_predicate_id (pred_uri_of (valueOpt g_in cell preds.relation))
      ∈ cellTriples env g_in preds msi cell := by
  unfold cellTriples
  rw [e1, e2]
  simp only []
  by_cases hc : cid_str_of (valueOpt g_in cell preds.cid) = "" <;>
    cases hm : valueOpt g_in cell preds.measure with
  | none => simp [hc, hm]
  | some m => cases hf : env.float (pyStr m) with
    | none => simp [hc, hm, hf]
    | some lex => simp [hc, hm, hf]

/-- For a complete cell with a parseable measure, the confidence triple
is among its emitted triples. -/
theorem confidence_mem_cellTriples {env : PyEnv} {g_in : List Triple} {preds : Preds}
    {msi : String} {cell subj obj m : Node} {lex : String}
    (e1 : valueOpt g_in cell preds.entity1 = some subj)
    (e2 : valueOpt g_in cell preds.entity2 = some obj)
    (hm : valueOpt g_in cell preds.measure = some m)
    (hf : env.float (pyStr m) = some lex) :
    Triple.mk (mapping_node_of env msi (cid_str_of (valueOpt g_in cell preds.cid)) subj obj)
        SSSOM_confidence (Node.lit lex (some XSD_double))
      ∈ cellTriples env g_in preds msi cell := by
  unfold cellTriples
  rw [e1, e2]
  simp only []
  by_cases hc : cid_str_of (valueOpt g_in cell preds.cid) = "" <;> simp [hc, hm, hf]

/-- No confidence triple is emitted for a cell whose measure does not
parse as a float (or is absent). -/
theorem confidence_not_mem_cellTriples {env : PyEnv} {g_in : List Triple} {preds : Preds}
    {msi : String} {cell : Node} {n x : Node}
    (hnof : ∀ m, valueOpt g_in cell preds.measure = some m → env.float (pyStr m) = none) :
    Triple.mk n SSSOM_confidence x ∉ cellTriples env g_in preds msi cell := by
  obtain ⟨h1, h2, h3, h4, h5, h6, h7, h8, h9, h10, h11, h12, h13, h14, h15, h16, h17, _⟩ := vocabNe
  have h5s : SSSOM_confidence ≠ RDF_type := Ne.symm h5
  unfold cellTriples
  cases e1 : valueOpt g_in cell preds.entity1 with
  | none => cases e2 : valueOpt g_in cell preds.entity2 <;> simp
  | some subj =>
    cases e2 : valueOpt g_in cell preds.entity2 with
    | none => simp
    | some obj =>
      simp only []
      by_cases hc : cid_str_of (valueOpt g_in cell preds.cid) = "" <;>
        cases hm : valueOpt g_in cell preds.measure with
      | none =>
        simp [hc, hm, Triple.mk.injEq, h5s, h13, h14, h15, h16, h17]
      | some m =>
        simp [hc, hm, hnof m hm, Triple.mk.injEq, h5s, h13, h14, h15, h16, h17]

/-- No record_id triple is emitted for a cell whose cid string is
empty. -/
theorem record_id_not_mem_cellTriples {env : PyEnv} {g_in : List Triple} {preds : Preds}
    {msi : String} {cell : Node} {n x : Node}
    (hcid : cid_str_of (valueOpt g_in cell preds.cid) = "") :
    Triple.mk n SSSOM_record_id x ∉ cellTriples env g_in preds msi cell := by
  obtain ⟨h1, h2, h3, h4, h5, h6, h7, h8, h9, h10, h11, h12, h13, h14, h15, h16, h17,
    h18, h19, h20, h21, h22⟩ := vocabNe
  have h1s : SSSOM_record_id ≠ RDF_type := Ne.symm h1
  have h22s : SSSOM_confidence ≠ SSSOM_record_id := h13
  unfold cellTriples
  cases e1 : valueOpt g_in cell preds.entity1 with
  | none => cases e2 : valueOpt g_in cell preds.entity2 <;> simp
  | some subj =>
    cases e2 : valueOpt g_in cell preds.entity2 with
    | none => simp
    | some obj =>
      simp only []
      cases hm : valueOpt g_in cell preds.measure with
      | none =>
        simp [hcid, hm, Triple.mk.injEq, h1s, h18, h19, h20, h21]
      | some m =>
        cases hf : env.float (pyStr m) with
        | none => simp [hcid, hm, hf, Triple.mk.injEq, h1s, h18, h19, h20, h21]
        | some lex => simp [hcid, hm, hf, Triple.mk.injEq, h1s, h18, h19, h20, h21, h22]

/-- Full membership characterization of the generation phase's output
graph. -/
theorem mem_convert_core {env : PyEnv} {stem : String} {g_in : List Triple} {preds : Preds}
    {alignments : List Node} {t : Triple} :
    t ∈ convert_core env stem g_in preds alignments ↔
      ((t = Triple.mk (Node.uri (mapping_set_iri_of stem)) RDF_type OWL_Ontology ∨
          t = Triple.mk (Node.uri (mapping_set_iri_of stem)) RDF_type SSSOM_MappingSet) ∨
        ∃ a ∈ alignments, ∃ c ∈ objectsOpt g_in a preds.map,
          t ∈ cellTriples env g_in preds (mapping_set_iri_of stem) c) ∨
      (∃ sv, (finalConvState env stem g_in preds alignments).subj_source = some sv ∧
        t = Triple.mk (Node.uri (mapping_set_iri_of stem)) SSSOM_subject_source sv) ∨
      (∃ sv, (finalConvState env stem g_in preds alignments).obj_source = some sv ∧
        t = Triple.mk (Node.uri (mapping_set_iri_of stem)) SSSOM_object_source sv) ∨
      (∃ m ∈ mappingNodesSpec env g_in preds (mapping_set_iri_of stem) alignments,
        t = Triple.mk (Node.uri (mapping_set_iri_of stem)) SSSOM_mappings m) := by
  have hfold : (alignments.foldl (processAlignment env g_in preds (mapping_set_iri_of stem))
      (ConvState.mk (seedOut (Node.uri (mapping_set_iri_of stem))) [] none none)) =
      finalConvState env stem g_in preds alignments := rfl
  have hmemf : ∀ u : Triple, u ∈ (finalConvState env stem g_in preds alignments).g_out ↔
      ((u = Triple.mk (Node.uri (mapping_set_iri_of stem)) RDF_type OWL_Ontology ∨
          u = Triple.mk (Node.uri (mapping_set_iri_of stem)) RDF_type SSSOM_MappingSet) ∨
        ∃ a ∈ alignments, ∃ c ∈ objectsOpt g_in a preds.map,
          u ∈ cellTriples env g_in preds (mapping_set_iri_of stem) c) := by
    intro u
    unfold finalConvState
    rw [mem_foldl_alignments]
    simp [seedOut_eq]
  simp only [convert_core, hfold]
  rw [mem_foldl_links]
  cases hss : (finalConvState env stem g_in preds alignments).subj_source with
  | none =>
    cases hos : (finalConvState env stem g_in preds alignments).obj_source with
    | none =>
      simp only [hss, hos, hmemf, List.mem_dedup, finalConvState_nodes, reduceCtorEq,
        false_and, exists_false, false_or, or_false]
    | some sv2 =>
      simp only [hss, hos, mem_addT, hmemf, List.mem_dedup, finalConvState_nodes,
        Option.some.injEq, exists_eq_left, exists_eq_left', reduceCtorEq, false_and,
        exists_false, false_or, or_false]
      generalize (∃ a ∈ alignments, ∃ c ∈ objectsOpt g_in a preds.map,
        t ∈ cellTriples env g_in preds (mapping_set_iri_of stem) c) = A
      generalize (∃ m ∈ mappingNodesSpec env g_in preds (mapping_set_iri_of stem) alignments,
        t = Triple.mk (Node.uri (mapping_set_iri_of stem)) SSSOM_mappings m) = B
      tauto
  | some sv1 =>
    cases hos : (finalConvState env stem g_in preds alignments).obj_source with
    | none =>
      simp only [hss, hos, mem_addT, hmemf, List.mem_dedup, finalConvState_nodes,
        Option.some.injEq, exists_eq_left, exists_eq_left', reduceCtorEq, false_and,
        exists_false, false_or, or_false]
      generalize (∃ a ∈ alignments, ∃ c ∈ objectsOpt g_in a preds.map,
        t ∈ cellTriples env g_in preds (mapping_set_iri_of stem) c) = A
      generalize (∃ m ∈ mappingNodesSpec env g_in preds (mapping_set_iri_of stem) alignments,
        t = Triple.mk (Node.uri (mapping_set_iri_of stem)) SSSOM_mappings m) = B
      tauto
    | some sv2 =>
      simp only [hss, hos, mem_addT, hmemf, List.mem_dedup, finalConvState_nodes,
        Option.some.injEq, exists_eq_left, exists_eq_left', reduceCtorEq, false_and,
        exists_false, false_or, or_false]
      generalize (∃ a ∈ alignments, ∃ c ∈ objectsOpt g_in a preds.map,
        t ∈ cellTriples env g_in preds (mapping_set_iri_of stem) c) = A
      generalize (∃ m ∈ mappingNodesSpec env g_in preds (mapping_set_iri_of stem) alignments,
        t = Triple.mk (Node.uri (mapping_set_iri_of stem)) SSSOM_mappings m) = B
      tauto

/-- Any triple emitted for some complete cell of some alignment is in the
generation phase's output. -/
theorem cell_mem_convert_core {env : PyEnv} {stem : String} {g_in : List Triple} {preds : Preds}
    {alignments : List Node} {a c : Node} {t : Triple}
    (ha : a ∈ alignments) (hc : c ∈ objectsOpt g_in a preds.map)
    (ht : t ∈ cellTriples env g_in preds (mapping_set_iri_of stem) c) :
    t ∈ convert_core env stem g_in preds alignments :=
  mem_convert_core.mpr (Or.inl (Or.inr ⟨a, ha, c, hc, ht⟩))

/-- Every generated mapping node is linked from the mapping set via
`sssom:mappings` in the output. -/
theorem link_mem_convert_core {env : PyEnv} {stem : String} {g_in : List Triple} {preds : Preds}
    {alignments : List Node} {m : Node}
    (hm : m ∈ mappingNodesSpec env g_in preds (mapping_set_iri_of stem) alignments) :
    Triple.mk (Node.uri (mapping_set_iri_of stem)) SSSOM_mappings m
      ∈ convert_core env stem g_in preds alignments :=
  mem_convert_core.mpr (Or.inr (Or.inr (Or.inr ⟨m, hm, rfl⟩)))

/-- A resource is typed `sssom:Mapping` in the output exactly when it is
one of the generated mapping nodes. -/
theorem typed_mem_convert_core {env : PyEnv} {stem : String} {g_in : List Triple} {preds : Preds}
    {alignments : List Node} {n : Node} :
    Triple.mk n RDF_type SSSOM_Mapping ∈ convert_core env stem g_in preds alignments ↔
      n ∈ mappingNodesSpec env g_in preds (mapping_set_iri_of stem) alignments := by
  obtain ⟨h1, h2, h3, h4, h5, h6, h7, h8, h9, h10, h11, _⟩ := vocabNe
  rw [mem_convert_core]
  simp only [mappingNodesSpec, List.mem_flatMap, List.mem_filterMap]
  constructor
  · rintro ((hseed | ⟨a, ha, c, hc, hmem⟩) | ⟨sv, _, heq⟩ | ⟨sv, _, heq⟩ | ⟨m, _, heq⟩)
    · rcases hseed with hseed | hseed
      · simp only [Triple.mk.injEq] at hseed
        exact absurd hseed.2.2 h10
      · simp only [Triple.mk.injEq] at hseed
        exact absurd hseed.2.2 h11
    · rw [type_mem_cellTriples] at hmem
      exact ⟨a, ha, c, hc, hmem⟩
    · simp only [Triple.mk.injEq] at heq
      exact absurd heq.2.1 h7
    · simp only [Triple.mk.injEq] at heq
      exact absurd heq.2.1 h8
    · simp only [Triple.mk.injEq] at heq
      exact absurd heq.2.1 h9
  · rintro ⟨a, ha, c, hc, hnode⟩
    exact Or.inl (Or.inr ⟨a, ha, c, hc, type_mem_cellTriples.mpr hnode⟩)

theorem mem_mappingSubjects {g : List Triple} {n : Node} :
    n ∈ mappingSubjects g ↔ Triple.mk n RDF_type SSSOM_Mapping ∈ g := by
  unfold mappingSubjects
  simp only [List.mem_map, List.mem_filter, decide_eq_true_eq]
  constructor
  · rintro ⟨t, ⟨htg, hp, ho⟩, hs⟩
    have ht : t = Triple.mk n RDF_type SSSOM_Mapping := by
      cases t
      simp_all
    rwa [ht] at htg
  · intro h
    exact ⟨Triple.mk n RDF_type SSSOM_Mapping, ⟨h, rfl, rfl⟩, rfl⟩

/-- Two lists with the same members have the same number of distinct
elements. -/
theorem dedup_length_eq_of_mem_iff {l1 l2 : List Node} (h : ∀ n, n ∈ l1 ↔ n ∈ l2) :
    l1.dedup.length = l2.dedup.length := by
  rw [← List.card_toFinset, ← List.card_toFinset]
  congr 1
  ext x
  simp only [List.mem_toFinset]
  exact h x

theorem length_filterMap_eq_filter {α β : Type} (l : List α) (f : α → Option β) (q : α → Bool)
    (h : ∀ x ∈ l, (f x).isSome = q x) :
    (l.filterMap f).length = (l.filter q).length := by
  induction l with
  | nil => rfl
  | cons a restl ih =>
    have ha := h a (List.mem_cons_self a restl)
    cases hf : f a with
    | none =>
      have hq : q a = false := by rw [← ha, hf]; rfl
      simp [List.filterMap_cons, hf, hq, ih (fun x hx => h x (List.mem_cons_of_mem _ hx))]
    | some b =>
      have hq : q a = true := by rw [← ha, hf]; rfl
      simp [List.filterMap_cons, hf, hq, ih (fun x hx => h x (List.mem_cons_of_mem _ hx))]

/-- One mapping node is generated per complete cell occurrence. -/
theorem length_mappingNodesSpec {env : PyEnv} {g_in : List Triple} {preds : Preds} {msi : String}
    {alignments : List Node} :
    (mappingNodesSpec env g_in preds msi alignments).length =
      (completeCells g_in preds alignments).length := by
  unfold mappingNodesSpec completeCells
  induction alignments with
  | nil => rfl
  | cons a rest ih =>
    simp only [List.flatMap_cons, List.length_append, ih]
    congr 1
    apply length_filterMap_eq_filter
    intro c _
    unfold cellMappingNode
    cases e1 : valueOpt g_in c preds.entity1 <;> cases e2 : valueOpt g_in c preds.entity2 <;>
      simp [e1, e2]

/-- An incomplete cell (missing entity1 or entity2) is dropped: the loop
body leaves the state unchanged. -/
theorem processCell_incomplete {env : PyEnv} {g_in : List Triple} {preds : Preds} {msi : String}
    {st : ConvState} {c : Node}
    (h : valueOpt g_in c preds.entity1 = none ∨ valueOpt g_in c preds.entity2 = none) :
    processCell env g_in preds msi st c = st := by
  unfold processCell
  rcases h with h | h
  · cases e2 : valueOpt g_in c preds.entity2 <;> simp [h, e2]
  · cases e1 : valueOpt g_in c preds.entity1 <;> simp [e1, h]

/-- Inversion of a successful conversion: the guards passed and the
output is the generation phase's graph. -/
theorem wrote_inversion {env : PyEnv} {stem : String} {g : List Triple} {outG : List Triple}
    (hw : convert_graph env stem g = ConvertResult.wrote outG) :
    required_keys.filter (fun k => (Preds.get (find_predicates_and_classes g) k).isNone) = [] ∧
    alignmentsOf g (find_predicates_and_classes g).alignment_class ≠ [] ∧
    outG = convert_core env stem g (find_predicates_and_classes g)
      (alignmentsOf g (find_predicates_and_classes g).alignment_class) := by
  simp only [convert_graph] at hw
  split_ifs at hw with hmiss halns
  refine ⟨not_not.mp hmiss, halns, ?_⟩
  injection hw with hg
  exact hg.symm

/-! ### Cell typing noninterference (infrastructure for C10) -/

/-- A Cell-typing triple: an `rdf:type` triple whose object's local name
ends with `Cell`. -/
def isCellTypeTriple (t : Triple) : Bool :=
  decide (t.p = RDF_type) && endswith (local_name (pyStr t.o)) str_Cell

/-- The projection of the discovery result the converter consults after
discovery: every slot except the Cell class. -/
def usedPreds (p : Preds) :
    Option Node × Option Node × Option Node × Option Node × Option Node × Option Node ×
      Option Node × Option Node × Option Node :=
  (p.onto1, p.onto2, p.map, p.entity1, p.entity2, p.measure, p.relation, p.cid,
    p.alignment_class)

theorem endswith_iff {s sfx : String} : endswith s sfx = true ↔ sfx.data <:+ s.data := by
  simp [endswith]

/-- The local name of `rdf:type` matches none of the eight predicate
suffixes. -/
theorem type_sfx_false :
    endswith (local_name (pyStr RDF_type)) str_onto1 = false ∧
    endswith (local_name (pyStr RDF_type)) str_onto2 = false ∧
    endswith (local_name (pyStr RDF_type)) str_map = false ∧
    endswith (local_name (pyStr RDF_type)) str_entity1 = false ∧
    endswith (local_name (pyStr RDF_type)) str_entity2 = false ∧
    endswith (local_name (pyStr RDF_type)) str_measure = false ∧
    endswith (local_name (pyStr RDF_type)) str_relation = false ∧
    endswith (local_name (pyStr RDF_type)) str_cid = false := by
  decide

/-- A local name ending in `Cell` cannot also end in `Alignment`. -/
theorem not_Alignment_of_Cell {s : String} (h : endswith s str_Cell = true) :
    endswith s str_Alignment = false := by
  cases hA : endswith s str_Alignment with
  | false => rfl
  | true =>
    exfalso
    have hsC : str_Cell.data <:+ s.data := endswith_iff.mp h
    have hsA : str_Alignment.data <:+ s.data := endswith_iff.mp hA
    rcases List.suffix_or_suffix_of_suffix hsC hsA with hx | hx
    · exact absurd hx (by decide)
    · exact absurd hx (by decide)

/-- Invariant of discovery: every stored predicate carries its matching
suffix, hence is not `rdf:type`; the stored Alignment class is an IRI
whose local name ends in `Alignment`, hence is not the object of any
Cell-typing triple. -/
def PredsInv (p : Preds) : Prop :=
  (∀ x, p.onto1 = some x → x ≠ RDF_type) ∧
  (∀ x, p.onto2 = some x → x ≠ RDF_type) ∧
  (∀ x, p.map = some x → x ≠ RDF_type) ∧
  (∀ x, p.entity1 = some x → x ≠ RDF_type) ∧
  (∀ x, p.entity2 = some x → x ≠ RDF_type) ∧
  (∀ x, p.measure = some x → x ≠ RDF_type) ∧
  (∀ x, p.relation = some x → x ≠ RDF_type) ∧
  (∀ x, p.cid = some x → x ≠ RDF_type) ∧
  (∀ x, p.alignment_class = some x →
    ∀ u : Triple, isCellTypeTriple u = true → u.o ≠ x)

set_option maxHeartbeats 1000000 in
theorem discover_pred_step_inv {st : Preds} {t : Triple} (h : PredsInv st) :
    PredsInv (discover_pred_step st t) := by
  obtain ⟨i1, i2, i3, i4, i5, i6, i7, i8, i9⟩ := h
  obtain ⟨f1, f2, f3, f4, f5, f6, f7, f8⟩ := type_sfx_false
  unfold discover_pred_step
  dsimp only
  split_ifs with h1 h2 h3 h4 h5 h6 h7 h8 <;>
    refine ⟨?_, ?_, ?_, ?_, ?_, ?_, ?_, ?_, ?_⟩ <;> intro x hx <;>
      first
        | exact i1 x hx
        | exact i2 x hx
        | exact i3 x hx
        | exact i4 x hx
        | exact i5 x hx
        | exact i6 x hx
        | exact i7 x hx
        | exact i8 x hx
        | exact i9 x hx
        | (injection hx with hx2
           subst hx2
           intro hteq
           simp_all)

theorem discover_class_step_inv {st : Preds} {t : Triple} (h : PredsInv st) :
    PredsInv (discover_class_step st t) := by
  obtain ⟨i1, i2, i3, i4, i5, i6, i7, i8, i9⟩ := h
  unfold discover_class_step
  by_cases ht : t.p = RDF_type
  · rw [if_pos ht]
    cases hto : t.o with
    | uri so =>
      dsimp only
      split_ifs with hA hC
      · refine ⟨i1, i2, i3, i4, i5, i6, i7, i8, ?_⟩
        intro x hx u hu heq
        injection hx with hx2
        subst hx2
        have hu2 := hu
        simp only [isCellTypeTriple, Bool.and_eq_true, decide_eq_true_eq] at hu2
        have hc : endswith (local_name (pyStr u.o)) str_Cell = true := hu2.2
        rw [heq] at hc
        simp only [pyStr] at hc
        rw [not_Alignment_of_Cell hc] at hA
        exact Bool.false_ne_true hA
      · exact ⟨i1, i2, i3, i4, i5, i6, i7, i8, i9⟩
      · exact ⟨i1, i2, i3, i4, i5, i6, i7, i8, i9⟩
    | lit sv dt => exact ⟨i1, i2, i3, i4, i5, i6, i7, i8, i9⟩
    | blank sv => exact ⟨i1, i2, i3, i4, i5, i6, i7, i8, i9⟩
  · rw [if_neg ht]
    exact ⟨i1, i2, i3, i4, i5, i6, i7, i8, i9⟩

theorem find_inv (g : List Triple) : PredsInv (find_predicates_and_classes g) := by
  unfold find_predicates_and_classes
  have h0 : PredsInv {} := by
    refine ⟨?_, ?_, ?_, ?_, ?_, ?_, ?_, ?_, ?_⟩ <;> intro x hx <;> cases hx
  have hgen : ∀ (l : List Triple) (st : Preds), PredsInv st →
      PredsInv (l.foldl discover_step st) := by
    intro l
    induction l with
    | nil => intro st h; exact h
    | cons t rest ih =>
        intro st h
        exact ih _ (discover_class_step_inv (discover_pred_step_inv h))
  exact hgen g {} h0

/-- A Cell-typing triple matches none of the eight predicate suffixes, so
the predicate section of the discovery loop ignores it entirely. -/
theorem discover_pred_step_cellType {st : Preds} {t : Triple}
    (hct : isCellTypeTriple t = true) :
    discover_pred_step st t = st := by
  have hp : t.p = RDF_type := by
    simp only [isCellTypeTriple, Bool.and_eq_true, decide_eq_true_eq] at hct
    exact hct.1
  obtain ⟨f1, f2, f3, f4, f5, f6, f7, f8⟩ := type_sfx_false
  unfold discover_pred_step
  rw [hp]
  simp [f1, f2, f3, f4, f5, f6, f7, f8]

/-- A Cell-typing triple can only set the (unused) Cell class slot in the
class section of the discovery loop. -/
theorem discover_class_step_cellType {st : Preds} {t : Triple}
    (hct : isCellTypeTriple t = true) :
    usedPreds (discover_class_step st t) = usedPreds st := by
  simp only [isCellTypeTriple, Bool.and_eq_true, decide_eq_true_eq] at hct
  obtain ⟨hp, hcell⟩ := hct
  unfold discover_class_step
  rw [if_pos hp]
  cases hto : t.o with
  | uri so =>
    rw [hto] at hcell
    simp only [pyStr] at hcell
    dsimp only
    simp only [not_Alignment_of_Cell hcell, Bool.false_eq_true, if_false, hcell, if_true]
    rfl
  | lit sv dt => rfl
  | blank sv => rfl

theorem discover_pred_step_agree {sa sb : Preds} {t : Triple}
    (h : usedPreds sa = usedPreds sb) :
    usedPreds (discover_pred_step sa t) = usedPreds (discover_pred_step sb t) := by
  simp only [usedPreds, Prod.mk.injEq] at h
  obtain ⟨h1, h2, h3, h4, h5, h6, h7, h8, h9⟩ := h
  unfold discover_pred_step
  dsimp only
  split_ifs <;> simp [usedPreds, h1, h2, h3, h4, h5, h6, h7, h8, h9]

theorem discover_class_step_agree {sa sb : Preds} {t : Triple}
    (h : usedPreds sa = usedPreds sb) :
    usedPreds (discover_class_step sa t) = usedPreds (discover_class_step sb t) := by
  have hflds := h
  simp only [usedPreds, Prod.mk.injEq] at hflds
  obtain ⟨h1, h2, h3, h4, h5, h6, h7, h8, h9⟩ := hflds
  unfold discover_class_step
  by_cases ht : t.p = RDF_type
  · rw [if_pos ht, if_pos ht]
    cases hto : t.o with
    | uri so =>
      dsimp only
      split_ifs <;> simp [usedPreds, h1, h2, h3, h4, h5, h6, h7, h8, h9]
    | lit sv dt => exact h
    | blank sv => exact h
  · rw [if_neg ht, if_neg ht]
    exact h

theorem discover_step_agree {sa sb : Preds} {t : Triple}
    (h : usedPreds sa = usedPreds sb) :
    usedPreds (discover_step sa t) = usedPreds (discover_step sb t) :=
  discover_class_step_agree (discover_pred_step_agree h)

/-- Removing the Cell-typing triples from a graph does not change any of
the discovery slots the converter consults. -/
theorem find_filter_usedPreds (g : List Triple) :
    usedPreds (find_predicates_and_classes (g.filter (fun t => !isCellTypeTriple t))) =
      usedPreds (find_predicates_and_classes g) := by
  unfold find_predicates_and_classes
  have hgen : ∀ (l : List Triple) (sa sb : Preds), usedPreds sa = usedPreds sb →
      usedPreds ((l.filter (fun t => !isCellTypeTriple t)).foldl discover_step sa) =
        usedPreds (l.foldl discover_step sb) := by
    intro l
    induction l with
    | nil =>
      intro sa sb h
      simpa using h
    | cons t rest ih =>
      intro sa sb h
      by_cases hct : isCellTypeTriple t = true
      · rw [List.filter_cons_of_neg (by simp [hct])]
        refine ih sa (discover_step sb t) ?_
        calc usedPreds sa = usedPreds sb := h
          _ = usedPreds (discover_class_step sb t) := (discover_class_step_cellType hct).symm
          _ = usedPreds (discover_step sb t) := by
              unfold discover_step
              rw [discover_pred_step_cellType hct]
      · rw [List.filter_cons_of_pos (by simp [Bool.not_eq_true] at hct ⊢; exact hct)]
        simp only [List.foldl_cons]
        exact ih _ _ (discover_step_agree h)
  exact hgen g {} {} rfl

theorem find?_filter_inv {α : Type} (l : List α) (keep q : α → Bool)
    (h : ∀ x ∈ l, keep x = false → q x = false) :
    (l.filter keep).find? q = l.find? q := by
  induction l with
  | nil => rfl
  | cons a rest ih =>
    by_cases hk : keep a = true
    · rw [List.filter_cons_of_pos hk]
      cases hq : q a with
      | false =>
        rw [List.find?_cons_of_neg _ (by simp [hq]), List.find?_cons_of_neg _ (by simp [hq])]
        exact ih (fun x hx => h x (List.mem_cons_of_mem _ hx))
      | true => rw [List.find?_cons_of_pos _ hq, List.find?_cons_of_pos _ hq]
    · have hk2 : keep a = false := by
        cases hkk : keep a with
        | false => rfl
        | true => exact absurd hkk hk
      rw [List.filter_cons_of_neg (by simp [hk2])]
      have hq : q a = false := h a (List.mem_cons_self a rest) hk2
      rw [List.find?_cons_of_neg _ (by simp [hq])]
      exact ih (fun x hx => h x (List.mem_cons_of_mem _ hx))

theorem filter_filter_inv {α : Type} (l : List α) (keep q : α → Bool)
    (h : ∀ x ∈ l, keep x = false → q x = false) :
    (l.filter keep).filter q = l.filter q := by
  induction l with
  | nil => rfl
  | cons a rest ih =>
    have ihr := ih (fun x hx => h x (List.mem_cons_of_mem _ hx))
    by_cases hk : keep a = true
    · rw [List.filter_cons_of_pos hk]
      cases hq : q a with
      | false =>
        rw [List.filter_cons_of_neg (by simp [hq]), List.filter_cons_of_neg (by simp [hq])]
        exact ihr
      | true =>
        rw [List.filter_cons_of_pos (by simp [hq]), List.filter_cons_of_pos (by simp [hq])]
        rw [ihr]
    · have hk2 : keep a = false := by
        cases hkk : keep a with
        | false => rfl
        | true => exact absurd hkk hk
      rw [List.filter_cons_of_neg (by simp [hk2])]
      have hq : q a = false := h a (List.mem_cons_self a rest) hk2
      rw [List.filter_cons_of_neg (by simp [hq])]
      exact ihr

theorem cellType_of_not_keep {t : Triple} (hkeep : (!isCellTypeTriple t) = false) :
    t.p = RDF_type := by
  have hct : isCellTypeTriple t = true := by
    cases hb : isCellTypeTriple t with
    | false => rw [hb] at hkeep; cases hkeep
    | true => rfl
  simp only [isCellTypeTriple, Bool.and_eq_true, decide_eq_true_eq] at hct
  exact hct.1

/-- Queries through a non-`rdf:type` predicate do not see the Cell-typing
triples. -/
theorem value_filter_inv {g : List Triple} {s p : Node} (hp : p ≠ RDF_type) :
    value (g.filter (fun t => !isCellTypeTriple t)) s p = value g s p := by
  unfold value
  rw [find?_filter_inv]
  intro t _ hkeep
  have hp2 : t.p = RDF_type := cellType_of_not_keep hkeep
  simp [hp2, Ne.symm hp]

theorem valueOpt_filter_inv {g : List Triple} {s : Node} {po : Option Node}
    (hpo : ∀ x, po = some x → x ≠ RDF_type) :
    valueOpt (g.filter (fun t => !isCellTypeTriple t)) s po = valueOpt g s po := by
  cases hc : po with
  | none => rfl
  | some p =>
    unfold valueOpt
    exact value_filter_inv (hpo p hc)

theorem objectsOpt_filter_inv {g : List Triple} {s : Node} {po : Option Node}
    (hpo : ∀ x, po = some x → x ≠ RDF_type) :
    objectsOpt (g.filter (fun t => !isCellTypeTriple t)) s po = objectsOpt g s po := by
  cases hc : po with
  | none => rfl
  | some p =>
    unfold objectsOpt
    dsimp only
    rw [filter_filter_inv]
    intro t _ hkeep
    have hp2 : t.p = RDF_type := cellType_of_not_keep hkeep
    simp [hp2, Ne.symm (hpo p hc)]

/-- The Alignment instances are unchanged by removing Cell-typing triples:
the discovered Alignment class is never the object of such a triple. -/
theorem alignmentsOf_filter_inv {g : List Triple} {ac : Option Node}
    (hac : ∀ x, ac = some x → ∀ u : Triple, isCellTypeTriple u = true → u.o ≠ x) :
    alignmentsOf (g.filter (fun t => !isCellTypeTriple t)) ac = alignmentsOf g ac := by
  unfold alignmentsOf
  rw [filter_filter_inv]
  intro t _ hkeep
  have hct : isCellTypeTriple t = true := by
    cases hb : isCellTypeTriple t with
    | false => rw [hb] at hkeep; cases hkeep
    | true => rfl
  cases hacc : ac with
  | none => simp
  | some x =>
    have hne := hac x hacc t hct
    simp [hne]

/-- Removing all Cell-typing triples from the input graph leaves the
converter's result unchanged: the discovered Cell class is never
consulted after discovery, and Cell-typing triples match no other query
of the conversion. -/
theorem convert_filter_invariant (env : PyEnv) (stem : String) (g : List Triple) :
    convert_graph env stem (g.filter (fun t => !isCellTypeTriple t)) =
      convert_graph env stem g := by
  have hup := find_filter_usedPreds g
  simp only [usedPreds, Prod.mk.injEq] at hup
  obtain ⟨e1, e2, e3, e4, e5, e6, e7, e8, e9⟩ := hup
  obtain ⟨i1, i2, i3, i4, i5, i6, i7, i8, i9⟩ := find_inv g
  have hcell : processCell env (g.filter (fun t => !isCellTypeTriple t))
      (find_predicates_and_classes (g.filter (fun t => !isCellTypeTriple t)))
      (mapping_set_iri_of stem) =
      processCell env g (find_predicates_and_classes g) (mapping_set_iri_of stem) := by
    funext st cell
    unfold processCell
    rw [e4, e5, e6, e7, e8]
    rw [valueOpt_filter_inv i8, valueOpt_filter_inv i4, valueOpt_filter_inv i5,
      valueOpt_filter_inv i6, valueOpt_filter_inv i7]
  have haln : processAlignment env (g.filter (fun t => !isCellTypeTriple t))
      (find_predicates_and_classes (g.filter (fun t => !isCellTypeTriple t)))
      (mapping_set_iri_of stem) =
      processAlignment env g (find_predicates_and_classes g) (mapping_set_iri_of stem) := by
    funext st aln
    unfold processAlignment
    rw [e1, e2, e3]
    rw [valueOpt_filter_inv i1, valueOpt_filter_inv i2, objectsOpt_filter_inv i3, hcell]
  have halns : alignmentsOf (g.filter (fun t => !isCellTypeTriple t))
      (find_predicates_and_classes (g.filter (fun t => !isCellTypeTriple t))).alignment_class =
      alignmentsOf g (find_predicates_and_classes g).alignment_class := by
    rw [e9]
    exact alignmentsOf_filter_inv i9
  have hmiss : required_keys.filter (fun k =>
      (Preds.get (find_predicates_and_classes
        (g.filter (fun t => !isCellTypeTriple t))) k).isNone) =
      required_keys.filter (fun k => (Preds.get (find_predicates_and_classes g) k).isNone) := by
    apply List.filter_congr
    intro k hk
    simp only [required_keys] at hk
    fin_cases hk <;>
      simp [Preds.get, str_onto1, str_onto2, str_map, str_entity1, str_entity2, str_measure,
        str_relation, str_cid, str_Alignment, str_Cell, e1, e2, e3, e4, e5, e6, e7, e8, e9]
  have hcore : convert_core env stem (g.filter (fun t => !isCellTypeTriple t))
      (find_predicates_and_classes (g.filter (fun t => !isCellTypeTriple t)))
      (alignmentsOf g (find_predicates_and_classes g).alignment_class) =
      convert_core env stem g (find_predicates_and_classes g)
      (alignmentsOf g (find_predicates_and_classes g).alignment_class) := by
    simp only [convert_core]
    rw [haln]
  simp only [convert_graph]
  rw [hmiss, halns, hcore]

/-! ### Batch driver lemmas -/

/-- When every file in the directory parses, the batch loop reaches the
end: no exception escapes (skips included). -/
theorem runBatch_all_parse {env : PyEnv} :
    ∀ fs : List TtlFile, (∀ f ∈ fs, ∃ gg, f.parsed = Except.ok gg) →
      (runBatch env fs).2 = none := by
  intro fs
  induction fs with
  | nil => intro _; rfl
  | cons f rest ih =>
    intro h
    obtain ⟨gg, hgg⟩ := h f (List.mem_cons_self f rest)
    simp only [runBatch, convert_alignment_file, hgg]
    exact ih (fun x hx => h x (List.mem_cons_of_mem _ hx))

/-- A parse error propagates out of the batch loop: the files after the
first malformed file are never processed, and only the outputs of the
files before it are written. -/
theorem runBatch_parse_error {env : PyEnv} (pre post : List TtlFile) (bad : TtlFile)
    (e : String) (hpre : ∀ f ∈ pre, ∃ gg, f.parsed = Except.ok gg)
    (hbad : bad.parsed = Except.error e) :
    runBatch env (pre ++ bad :: post) = ((runBatch env pre).1, some e) := by
  induction pre with
  | nil =>
    simp only [List.nil_append, runBatch, convert_alignment_file, hbad]
  | cons f rest ih =>
    obtain ⟨gg, hgg⟩ := hpre f (List.mem_cons_self f rest)
    simp only [List.cons_append, runBatch, convert_alignment_file, hgg, List.append_eq]
    rw [ih (fun x hx => hpre x (List.mem_cons_of_mem _ hx))]

/-! ### Concrete sample inputs used to instantiate the theorems -/

/-- A concrete interpreter environment: `hash` is constantly 0 and only
the string 0.95 parses as a float. -/
def env0 : PyEnv :=
  PyEnv.mk (fun _ => 0) (fun sv => if sv = "0.95" then some ("0.95") else none)

def exNs : String := "http://ex.org/a#"
def exAln : Node := Node.uri (exNs ++ "A1")
def exCell1 : Node := Node.uri (exNs ++ "c1")
def exCell2 : Node := Node.uri (exNs ++ "c2")
def exOnto1P : Node := Node.uri (exNs ++ "alignmentonto1")
def exOnto2P : Node := Node.uri (exNs ++ "onto2")
def exMapP : Node := Node.uri (exNs ++ "map")
def exE1P : Node := Node.uri (exNs ++ "entity1")
def exE2P : Node := Node.uri (exNs ++ "entity2")
def exMeasP : Node := Node.uri (exNs ++ "measure")
def exRelP : Node := Node.uri (exNs ++ "relation")
def exCidP : Node := Node.uri (exNs ++ "cid")
def exAlnClass : Node := Node.uri (exNs ++ "Alignment")
def exCellClass : Node := Node.uri (exNs ++ "Cell")
def exX : Node := Node.uri ("http://a/x")
def exY : Node := Node.uri ("http://b/y")
def exX2 : Node := Node.uri ("http://a/x2")
def exY2 : Node := Node.uri ("http://b/y2")

/-- A valid single-cell alignment graph (relation "=", measure "0.95",
no cid, and no Cell-typed resource). -/
def exGood : List Triple :=
  [ Triple.mk exAln RDF_type exAlnClass,
    Triple.mk exAln exOnto1P (Node.uri ("http://onto1.org/")),
    Triple.mk exAln exOnto2P (Node.uri ("http://onto2.org/")),
    Triple.mk exAln exMapP exCell1,
    Triple.mk exCell1 exE1P exX,
    Triple.mk exCell1 exE2P exY,
    Triple.mk exCell1 exMeasP (Node.lit ("0.95") none),
    Triple.mk exCell1 exRelP (Node.lit ("=") none) ]

/-- Two complete cells carrying the same cid literal 7: their mapping
IRIs collide. -/
def exDup : List Triple :=
  [ Triple.mk exAln RDF_type exAlnClass,
    Triple.mk exAln exOnto1P (Node.uri ("http://onto1.org/")),
    Triple.mk exAln exOnto2P (Node.uri ("http://onto2.org/")),
    Triple.mk exAln exMapP exCell1,
    Triple.mk exAln exMapP exCell2,
    Triple.mk exCell1 exE1P exX,
    Triple.mk exCell1 exE2P exY,
    Triple.mk exCell1 exCidP (Node.lit ("7") none),
    Triple.mk exCell1 exMeasP (Node.lit ("0.95") none),
    Triple.mk exCell1 exRelP (Node.lit ("=") none),
    Triple.mk exCell2 exE1P exX2,
    Triple.mk exCell2 exE2P exY2,
    Triple.mk exCell2 exCidP (Node.lit ("7") none),
    Triple.mk exCell2 exMeasP (Node.lit ("0.9") none),
    Triple.mk exCell2 exRelP (Node.lit ("near") none) ]

/-- One complete cell whose cid triple carries an empty literal. -/
def exEmptyCid : List Triple :=
  [ Triple.mk exAln RDF_type exAlnClass,
    Triple.mk exAln exOnto1P (Node.uri ("http://onto1.org/")),
    Triple.mk exAln exOnto2P (Node.uri ("http://onto2.org/")),
    Triple.mk exAln exMapP exCell1,
    Triple.mk exCell1 exE1P exX,
    Triple.mk exCell1 exE2P exY,
    Triple.mk exCell1 exCidP (Node.lit ("") none),
    Triple.mk exCell1 exMeasP (Node.lit ("0.95") none),
    Triple.mk exCell1 exRelP (Node.lit ("=") none) ]

/-- `exGood` with an added Cell-typing triple for the cell resource. -/
def exGoodTyped : List Triple :=
  exGood ++ [Triple.mk exCell1 RDF_type exCellClass]

/-- Two complete cells with distinct nonempty cids 7 and 8. -/
def exDistinct : List Triple :=
  [ Triple.mk exAln RDF_type exAlnClass,
    Triple.mk exAln exOnto1P (Node.uri ("http://onto1.org/")),
    Triple.mk exAln exOnto2P (Node.uri ("http://onto2.org/")),
    Triple.mk exAln exMapP exCell1,
    Triple.mk exAln exMapP exCell2,
    Triple.mk exCell1 exE1P exX,
    Triple.mk exCell1 exE2P exY,
    Triple.mk exCell1 exCidP (Node.lit ("7") none),
    Triple.mk exCell2 exE1P exX2,
    Triple.mk exCell2 exE2P exY2,
    Triple.mk exCell2 exCidP (Node.lit ("8") none) ]

/-- A malformed Turtle file (its parse raises) named so that it sorts
first, and a valid file. -/
def fileBad : TtlFile := TtlFile.mk ("a") (Except.error ("ParserError"))
def fileGood : TtlFile := TtlFile.mk ("b") (Except.ok exGood)

/-! ### Remaining helper lemmas for the claims -/

/-- The relation → predicate_id reduction: exactMatch exactly for a
literal whose string is the equality sign, relatedMatch otherwise. -/
theorem pred_uri_of_spec (rel : Option Node) :
    (pred_uri_of rel = SKOS_exactMatch ↔ ∃ dt, rel = some (Node.lit ("=") dt)) ∧
    (pred_uri_of rel ≠ SKOS_exactMatch → pred_uri_of rel = SKOS_relatedMatch) := by
  obtain ⟨_, _, _, _, _, _, _, _, _, _, _, h12, _⟩ := vocabNe
  cases rel with
  | none =>
    refine ⟨?_, ?_⟩ <;> simp [pred_uri_of, Ne.symm h12]
  | some n =>
    cases n with
    | lit sv dt =>
      by_cases hsv : sv = "="
      · subst hsv
        refine ⟨⟨fun _ => ⟨dt, rfl⟩, fun _ => by simp [pred_uri_of]⟩, fun h => ?_⟩
        exact absurd (by simp [pred_uri_of]) h
      · refine ⟨?_, ?_⟩ <;> simp [pred_uri_of, hsv, Ne.symm h12]
    | uri sv =>
      refine ⟨?_, ?_⟩ <;> simp [pred_uri_of, Ne.symm h12]
    | blank sv =>
      refine ⟨?_, ?_⟩ <;> simp [pred_uri_of, Ne.symm h12]

/-- The cell-loop body depends on the discovered roles only through the
entity/measure/relation slots and the coerced cid string. -/
theorem processCell_cid_congr {env : PyEnv} {g : List Triple} {msi : String} {st : ConvState}
    {cell : Node} {pa pb : Preds}
    (h1 : pa.entity1 = pb.entity1) (h2 : pa.entity2 = pb.entity2)
    (h3 : pa.measure = pb.measure) (h4 : pa.relation = pb.relation)
    (hc : cid_str_of (valueOpt g cell pa.cid) = cid_str_of (valueOpt g cell pb.cid)) :
    processCell env g pa msi st cell = processCell env g pb msi st cell := by
  simp only [processCell]
  rw [h1, h2, h3, h4, hc]

theorem string_append_left_cancel {p a b : String} (h : p ++ a = p ++ b) : a = b := by
  apply String.ext
  have hd : p.data ++ a.data = p.data ++ b.data := by
    rw [← String.data_append, ← String.data_append, h]
  exact List.append_cancel_left hd

/-- A cell list's generated nodes, when every complete cell has a
nonempty cid string, are the `#m<cid>` IRIs of its complete cells. -/
theorem cells_filterMap_eq_map {env : PyEnv} {g : List Triple} {preds : Preds} {msi : String}
    (cells : List Node)
    (h : ∀ c ∈ cells.filter (fun c =>
        (valueOpt g c preds.entity1).isSome && (valueOpt g c preds.entity2).isSome),
      cid_str_of (valueOpt g c preds.cid) ≠ "") :
    cells.filterMap (cellMappingNode env g preds msi) =
      (cells.filter (fun c =>
        (valueOpt g c preds.entity1).isSome && (valueOpt g c preds.entity2).isSome)).map
        (fun c => Node.uri (msi ++ "#m" ++ cid_str_of (valueOpt g c preds.cid))) := by
  induction cells with
  | nil => rfl
  | cons c restc ihc =>
    have hh : ∀ x ∈ restc.filter (fun c =>
        (valueOpt g c preds.entity1).isSome && (valueOpt g c preds.entity2).isSome),
        cid_str_of (valueOpt g x preds.cid) ≠ "" := by
      intro x hx
      refine h x ?_
      rw [List.mem_filter] at hx ⊢
      exact ⟨List.mem_cons_of_mem _ hx.1, hx.2⟩
    cases e1 : valueOpt g c preds.entity1 with
    | none =>
      simp [List.filter_cons, List.filterMap_cons, cellMappingNode, e1, ihc hh]
    | some subj =>
      cases e2 : valueOpt g c preds.entity2 with
      | none =>
        simp [List.filter_cons, List.filterMap_cons, cellMappingNode, e1, e2, ihc hh]
      | some obj =>
        have hcne : cid_str_of (valueOpt g c preds.cid) ≠ "" := by
          refine h c (List.mem_filter.mpr ⟨List.mem_cons_self c restc, ?_⟩)
          simp [e1, e2]
        simp [List.filter_cons, List.filterMap_cons, cellMappingNode, e1, e2, ihc hh,
          mapping_node_of, hcne]

/-- When every complete cell carries a nonempty cid string, the generated
mapping nodes are exactly the `#m<cid>` IRIs of the complete cells. -/
theorem nodesSpec_eq_map {env : PyEnv} {g : List Triple} {preds : Preds} {msi : String}
    {alignments : List Node}
    (h : ∀ c ∈ completeCells g preds alignments,
      cid_str_of (valueOpt g c preds.cid) ≠ "") :
    mappingNodesSpec env g preds msi alignments =
      (completeCells g preds alignments).map
        (fun c => Node.uri (msi ++ "#m" ++ cid_str_of (valueOpt g c preds.cid))) := by
  unfold mappingNodesSpec completeCells
  unfold completeCells at h
  revert h
  induction alignments with
  | nil =>
    intro _
    rfl
  | cons a rest ih =>
    intro h
    simp only [List.flatMap_cons, List.map_append]
    rw [cells_filterMap_eq_map (objectsOpt g a preds.map) (fun c hc => h c (by
        simp only [List.flatMap_cons, List.mem_append]
        exact Or.inl hc)),
      ih (fun c hc => h c (by
        simp only [List.flatMap_cons, List.mem_append]
        exact Or.inr hc))]

/-! ### Claim theorems -/

/-- C1 (counterexample): batch driver resilience fails as stated.  With a
directory holding one valid file and one malformed file sorted first,
the valid file alone would produce one output, but the full run produces
zero outputs and the parse exception propagates out of the loop. -/
theorem C1_counterexample :
    (runBatch env0 [fileGood]).1.length = 1 ∧
    runBatch env0 [fileBad, fileGood] = ([], some ("ParserError")) := by
  constructor
  · decide
  · decide

/-- C1 (amended): a skip (missing roles or no Alignment instances) does
not halt processing of the remaining files — when every file parses,
the run completes with no exception — but a Turtle parse error is not
handled: it propagates, the files after the first malformed file are
not processed, and only the outputs of the files before it are
produced. -/
theorem C1_amended_thm (env : PyEnv) (fs pre post : List TtlFile) (bad : TtlFile) (e : String) :
    ((∀ f ∈ fs, ∃ gg, f.parsed = Except.ok gg) → (runBatch env fs).2 = none) ∧
    ((∀ f ∈ pre, ∃ gg, f.parsed = Except.ok gg) → bad.parsed = Except.error e →
      runBatch env (pre ++ bad :: post) = ((runBatch env pre).1, some e)) :=
  ⟨fun h => runBatch_all_parse fs h,
    fun h1 h2 => runBatch_parse_error pre post bad e h1 h2⟩

/-- C1 (witness): the amended claim at the concrete two-file directory. -/
theorem C1_amended_witness :
    (runBatch env0 [fileGood]).2 = none ∧
    runBatch env0 ([] ++ fileBad :: [fileGood]) = ((runBatch env0 []).1, some ("ParserError")) := by
  constructor
  · refine (C1_amended_thm env0 [fileGood] [] [fileGood] fileBad ("ParserError")).1 ?_
    intro f hf
    rw [List.mem_singleton] at hf
    subst hf
    exact ⟨exGood, rfl⟩
  · refine (C1_amended_thm env0 [fileGood] [] [fileGood] fileBad ("ParserError")).2 ?_ rfl
    intro f hf
    exact absurd hf (List.not_mem_nil f)

/-- C2 (counterexample): the Cell class is not a required role.  In
`exGood` every required role resolves but no resource is typed with a
Cell-suffixed class, so the Cell role is unresolved — yet the file is
not skipped: the converter writes an output. -/
theorem C2_counterexample :
    (find_predicates_and_classes exGood).cell_class = none ∧
    convert_graph env0 ("b") exGood =
      ConvertResult.wrote (outOf (convert_graph env0 ("b") exGood)) := by
  constructor
  · decide
  · rfl

/-- C2 (amended): cid and the Cell class are the only optional discovery
roles: if any of onto1, onto2, map, entity1, entity2, measure, relation
or the Alignment class is unresolved, the input file is skipped with
the missing roles named, and no output is produced. -/
theorem C2_amended_thm (env : PyEnv) (stem : String) (g : List Triple) (k : String)
    (hk : k ∈ required_keys)
    (hnone : Preds.get (find_predicates_and_classes g) k = none) :
    convert_graph env stem g =
      ConvertResult.skippedMissing
        (required_keys.filter (fun r => (Preds.get (find_predicates_and_classes g) r).isNone)) ∧
    k ∈ required_keys.filter (fun r => (Preds.get (find_predicates_and_classes g) r).isNone) := by
  have hkmem : k ∈ required_keys.filter
      (fun r => (Preds.get (find_predicates_and_classes g) r).isNone) := by
    rw [List.mem_filter]
    exact ⟨hk, by simp [hnone]⟩
  have hne : required_keys.filter
      (fun r => (Preds.get (find_predicates_and_classes g) r).isNone) ≠ [] := by
    intro heq
    rw [heq] at hkmem
    exact absurd hkmem (List.not_mem_nil k)
  refine ⟨?_, hkmem⟩
  simp only [convert_graph]
  rw [if_pos hne]

/-- C2 (witness): on the empty graph every required role is missing and
the converter skips, naming onto1 among the missing roles. -/
theorem C2_amended_witness :
    convert_graph env0 ("w") [] =
      ConvertResult.skippedMissing
        (required_keys.filter (fun r => (Preds.get (find_predicates_and_classes []) r).isNone)) ∧
    str_onto1 ∈ required_keys.filter
      (fun r => (Preds.get (find_predicates_and_classes []) r).isNone) :=
  C2_amended_thm env0 ("w") [] str_onto1 (by decide) (by decide)

/-- C3: missing-role skip behaviour.  When any of the 8 required roles is
unresolved after discovery, the converter returns normally (no
exception) with a skip whose warning payload names exactly the missing
roles, and no output graph is produced. -/
theorem C3_thm (env : PyEnv) (f : TtlFile) (g : List Triple)
    (hparse : f.parsed = Except.ok g)
    (hmiss : required_keys.filter
      (fun k => (Preds.get (find_predicates_and_classes g) k).isNone) ≠ []) :
    convert_alignment_file env f =
      Except.ok (ConvertResult.skippedMissing
        (required_keys.filter
          (fun k => (Preds.get (find_predicates_and_classes g) k).isNone))) := by
  unfold convert_alignment_file
  rw [hparse]
  simp only [convert_graph]
  rw [if_pos hmiss]

/-- C3 (witness): a parsed but empty graph is skipped with all eight
required roles reported missing. -/
theorem C3_witness :
    convert_alignment_file env0 (TtlFile.mk ("w") (Except.ok [])) =
      Except.ok (ConvertResult.skippedMissing
        (required_keys.filter
          (fun k => (Preds.get (find_predicates_and_classes []) k).isNone))) :=
  C3_thm env0 (TtlFile.mk ("w") (Except.ok [])) [] rfl (by decide)

/-- C4 (counterexample): the mapping count is not always N.  In `exDup`
two complete cells share the cid literal 7, so their mapping IRIs
collide and the output contains one `sssom:Mapping` resource, not
two. -/
theorem C4_counterexample :
    (completeCells exDup (find_predicates_and_classes exDup)
      (alignmentsOf exDup (find_predicates_and_classes exDup).alignment_class)).length = 2 ∧
    convert_graph env0 ("d") exDup =
      ConvertResult.wrote (outOf (convert_graph env0 ("d") exDup)) ∧
    mappingResourceCount (outOf (convert_graph env0 ("d") exDup)) = 1 := by
  refine ⟨by decide, by rfl, by decide⟩

/-- C4 (amended): the output contains one `sssom:Mapping` resource per
distinct generated mapping IRI — exactly N (the number of complete
cells) whenever the generated IRIs are pairwise distinct; every
Mapping-typed resource is linked from the mapping set via
`sssom:mappings`; and a cell lacking entity1 or entity2 is dropped
silently, leaving the loop state unchanged. -/
theorem C4_amended_thm (env : PyEnv) (stem : String) (g outG : List Triple)
    (hw : convert_graph env stem g = ConvertResult.wrote outG)
    (hnodup : (mappingNodesSpec env g (find_predicates_and_classes g) (mapping_set_iri_of stem)
      (alignmentsOf g (find_predicates_and_classes g).alignment_class)).Nodup) :
    mappingResourceCount outG =
      (completeCells g (find_predicates_and_classes g)
        (alignmentsOf g (find_predicates_and_classes g).alignment_class)).length ∧
    (∀ n : Node, Triple.mk n RDF_type SSSOM_Mapping ∈ outG →
      Triple.mk (Node.uri (mapping_set_iri_of stem)) SSSOM_mappings n ∈ outG) ∧
    (∀ (st : ConvState) (c : Node),
      (valueOpt g c (find_predicates_and_classes g).entity1 = none ∨
        valueOpt g c (find_predicates_and_classes g).entity2 = none) →
      processCell env g (find_predicates_and_classes g) (mapping_set_iri_of stem) st c = st) := by
  obtain ⟨-, -, hout⟩ := wrote_inversion hw
  subst hout
  refine ⟨?_, ?_, ?_⟩
  · unfold mappingResourceCount
    rw [dedup_length_eq_of_mem_iff
      (fun n => (mem_mappingSubjects).trans typed_mem_convert_core)]
    rw [List.dedup_eq_self.mpr hnodup]
    exact length_mappingNodesSpec
  · intro n hn
    exact link_mem_convert_core (typed_mem_convert_core.mp hn)
  · intro st c hinc
    exact processCell_incomplete hinc

/-- C4 (witness): on the single-cell file the count is the number of
complete cells (one). -/
theorem C4_amended_witness :
    mappingResourceCount (outOf (convert_graph env0 ("b") exGood)) =
      (completeCells exGood (find_predicates_and_classes exGood)
        (alignmentsOf exGood (find_predicates_and_classes exGood).alignment_class)).length :=
  (C4_amended_thm env0 ("b") exGood (outOf (convert_graph env0 ("b") exGood))
    (by rfl) (by decide)).1

/-- C5: relation-to-predicate reduction.  For every extracted complete
cell the emitted predicate_id is the value of `pred_uri_of` on the
cell's relation value, which is skos:exactMatch iff that value is a
literal with string exactly the equality sign, and skos:relatedMatch in
every other case (absent or non-literal included). -/
theorem C5_thm (env : PyEnv) (stem : String) (g outG : List Triple) (aln cell subj obj : Node)
    (hw : convert_graph env stem g = ConvertResult.wrote outG)
    (haln : aln ∈ alignmentsOf g (find_predicates_and_classes g).alignment_class)
    (hcell : cell ∈ objectsOpt g aln (find_predicates_and_classes g).map)
    (he1 : valueOpt g cell (find_predicates_and_classes g).entity1 = some subj)
    (he2 : valueOpt g cell (find_predicates_and_classes g).entity2 = some obj) :
    Triple.mk (mapping_node_of env (mapping_set_iri_of stem)
        (cid_str_of (valueOpt g cell (find_predicates_and_classes g).cid)) subj obj)
      SSSOM_predicate_id (pred_uri_of (valueOpt g cell (find_predicates_and_classes g).relation))
      ∈ outG ∧
    (pred_uri_of (valueOpt g cell (find_predicates_and_classes g).relation) = SKOS_exactMatch ↔
      ∃ dt, valueOpt g cell (find_predicates_and_classes g).relation =
        some (Node.lit ("=") dt)) ∧
    (pred_uri_of (valueOpt g cell (find_predicates_and_classes g).relation) ≠ SKOS_exactMatch →
      pred_uri_of (valueOpt g cell (find_predicates_and_classes g).relation) =
        SKOS_relatedMatch) := by
  obtain ⟨-, -, hout⟩ := wrote_inversion hw
  subst hout
  refine ⟨cell_mem_convert_core haln hcell (predicate_id_mem_cellTriples he1 he2), ?_, ?_⟩
  · exact (pred_uri_of_spec _).1
  · exact (pred_uri_of_spec _).2

/-- C5 (witness): the single cell of `exGood` (relation "=") emits its
predicate_id triple into the written graph. -/
theorem C5_witness :
    Triple.mk (mapping_node_of env0 (mapping_set_iri_of ("b"))
        (cid_str_of (valueOpt exGood exCell1 (find_predicates_and_classes exGood).cid)) exX exY)
      SSSOM_predicate_id
      (pred_uri_of (valueOpt exGood exCell1 (find_predicates_and_classes exGood).relation))
      ∈ outOf (convert_graph env0 ("b") exGood) :=
  (C5_thm env0 ("b") exGood (outOf (convert_graph env0 ("b") exGood)) exAln exCell1 exX exY
    (by rfl) (by decide) (by decide) (by decide) (by decide)).1

/-- C6 (counterexample): the claim fails when a cid triple is present but
its value coerces to the empty string.  In `exEmptyCid` the cell has a
cid triple with empty literal, yet the mapping IRI is the hash fallback
`#m0` and not `#m<cid>` (which would be the IRI ending in `#m`). -/
theorem C6_counterexample :
    Triple.mk exCell1 exCidP (Node.lit ("") none) ∈ exEmptyCid ∧
    Triple.mk (Node.uri ("http://example.org/mappings/e#m0")) RDF_type SSSOM_Mapping
      ∈ outOf (convert_graph env0 ("e") exEmptyCid) ∧
    Triple.mk (Node.uri ("http://example.org/mappings/e#m")) RDF_type SSSOM_Mapping
      ∉ outOf (convert_graph env0 ("e") exEmptyCid) := by
  refine ⟨by decide, by decide, by decide⟩

/-- C6 (amended): mapping IRI scheme.  For every extracted complete cell,
the mapping node is typed in the output; its IRI is
`<mapping-set-iri>#m<cid>` when the coerced cid string is nonempty, and
`<mapping-set-iri>#m<abs(hash(entity1, entity2))>` when the cid is
absent or coerces to the empty string; the mapping set IRI is
`http://example.org/mappings/<input-file-stem>`. -/
theorem C6_amended_thm (env : PyEnv) (stem : String) (g outG : List Triple)
    (aln cell subj obj : Node)
    (hw : convert_graph env stem g = ConvertResult.wrote outG)
    (haln : aln ∈ alignmentsOf g (find_predicates_and_classes g).alignment_class)
    (hcell : cell ∈ objectsOpt g aln (find_predicates_and_classes g).map)
    (he1 : valueOpt g cell (find_predicates_and_classes g).entity1 = some subj)
    (he2 : valueOpt g cell (find_predicates_and_classes g).entity2 = some obj) :
    Triple.mk (mapping_node_of env (mapping_set_iri_of stem)
        (cid_str_of (valueOpt g cell (find_predicates_and_classes g).cid)) subj obj)
      RDF_type SSSOM_Mapping ∈ outG ∧
    mapping_set_iri_of stem = "http://example.org/mappings/" ++ stem ∧
    (cid_str_of (valueOpt g cell (find_predicates_and_classes g).cid) ≠ "" →
      mapping_node_of env (mapping_set_iri_of stem)
          (cid_str_of (valueOpt g cell (find_predicates_and_classes g).cid)) subj obj =
        Node.uri (mapping_set_iri_of stem ++ "#m" ++
          cid_str_of (valueOpt g cell (find_predicates_and_classes g).cid))) ∧
    (cid_str_of (valueOpt g cell (find_predicates_and_classes g).cid) = "" →
      mapping_node_of env (mapping_set_iri_of stem)
          (cid_str_of (valueOpt g cell (find_predicates_and_classes g).cid)) subj obj =
        Node.uri (mapping_set_iri_of stem ++ "#m" ++
          Nat.repr (Int.natAbs (env.hash (subj, obj))))) := by
  obtain ⟨-, -, hout⟩ := wrote_inversion hw
  subst hout
  refine ⟨?_, rfl, ?_, ?_⟩
  · refine cell_mem_convert_core haln hcell (type_mem_cellTriples.mpr ?_)
    unfold cellMappingNode
    rw [he1, he2]
  · intro hne
    unfold mapping_node_of
    rw [if_neg hne]
  · intro heq
    unfold mapping_node_of
    rw [if_pos heq]

/-- C6 (witness): cell 1 of `exDup` carries cid 7, so its Mapping IRI
ends in `#m7` and its type triple is in the written graph. -/
theorem C6_amended_witness :
    Triple.mk (mapping_node_of env0 (mapping_set_iri_of ("d"))
        (cid_str_of (valueOpt exDup exCell1 (find_predicates_and_classes exDup).cid)) exX exY)
      RDF_type SSSOM_Mapping ∈ outOf (convert_graph env0 ("d") exDup) :=
  (C6_amended_thm env0 ("d") exDup (outOf (convert_graph env0 ("d") exDup)) exAln exCell1
    exX exY (by rfl) (by decide) (by decide) (by decide) (by decide)).1

/-- C7 (counterexample): the generated mapping IRIs are not pairwise
distinct.  In `exDup` there are two extracted complete cells but the
converter's accumulated mapping-node list contains a duplicate. -/
theorem C7_counterexample :
    (completeCells exDup (find_predicates_and_classes exDup)
      (alignmentsOf exDup (find_predicates_and_classes exDup).alignment_class)).length = 2 ∧
    ¬ ((finalConvState env0 ("d") exDup (find_predicates_and_classes exDup)
      (alignmentsOf exDup
        (find_predicates_and_classes exDup).alignment_class)).all_mapping_nodes).Nodup := by
  refine ⟨by decide, by decide⟩

/-- C7 (amended): the mapping IRIs generated for a file are pairwise
distinct whenever the complete cells carry pairwise-distinct nonempty
cid strings; the hash-based fallback is used exactly when the coerced
cid string is empty (cid absent or empty), and it is not guaranteed
collision-free. -/
theorem C7_amended_thm (env : PyEnv) (stem : String) (g : List Triple)
    (hnodup : ((completeCells g (find_predicates_and_classes g)
        (alignmentsOf g (find_predicates_and_classes g).alignment_class)).map
      (fun c => cid_str_of (valueOpt g c (find_predicates_and_classes g).cid))).Nodup)
    (hne : ∀ c ∈ completeCells g (find_predicates_and_classes g)
        (alignmentsOf g (find_predicates_and_classes g).alignment_class),
      cid_str_of (valueOpt g c (find_predicates_and_classes g).cid) ≠ "") :
    ((finalConvState env stem g (find_predicates_and_classes g)
      (alignmentsOf g (find_predicates_and_classes g).alignment_class)).all_mapping_nodes).Nodup ∧
    (∀ (cs : String) (subj obj : Node), cs = "" →
      mapping_node_of env (mapping_set_iri_of stem) cs subj obj =
        Node.uri (mapping_set_iri_of stem ++ "#m" ++
          Nat.repr (Int.natAbs (env.hash (subj, obj))))) ∧
    (∀ (cs : String) (subj obj : Node), cs ≠ "" →
      mapping_node_of env (mapping_set_iri_of stem) cs subj obj =
        Node.uri (mapping_set_iri_of stem ++ "#m" ++ cs)) := by
  refine ⟨?_, ?_, ?_⟩
  · rw [finalConvState_nodes, nodesSpec_eq_map hne]
    have hmapmap : (completeCells g (find_predicates_and_classes g)
        (alignmentsOf g (find_predicates_and_classes g).alignment_class)).map
        (fun c => Node.uri (mapping_set_iri_of stem ++ "#m" ++
          cid_str_of (valueOpt g c (find_predicates_and_classes g).cid))) =
        ((completeCells g (find_predicates_and_classes g)
          (alignmentsOf g (find_predicates_and_classes g).alignment_class)).map
        (fun c => cid_str_of (valueOpt g c (find_predicates_and_classes g).cid))).map
        (fun cs => Node.uri (mapping_set_iri_of stem ++ "#m" ++ cs)) := by
      rw [List.map_map]
      rfl
    rw [hmapmap]
    refine List.Nodup.map ?_ hnodup
    intro a b hab
    injection hab with hab2
    exact string_append_left_cancel hab2
  · intro cs subj obj hcs
    unfold mapping_node_of
    rw [if_pos hcs]
  · intro cs subj obj hcs
    unfold mapping_node_of
    rw [if_neg hcs]

/-- C7 (witness): with distinct cids 7 and 8 the generated mapping-node
list is duplicate-free. -/
theorem C7_amended_witness :
    ((finalConvState env0 ("f") exDistinct (find_predicates_and_classes exDistinct)
      (alignmentsOf exDistinct
        (find_predicates_and_classes exDistinct).alignment_class)).all_mapping_nodes).Nodup :=
  (C7_amended_thm env0 ("f") exDistinct (by decide) (by decide)).1

/-- C8: measure-to-confidence handling.  For every extracted complete
cell with a present measure: if the measure string converts to a float,
the written graph holds the confidence triple with the xsd:double
literal of that value; if the conversion raises ValueError, the cell
body adds no confidence triple at all (silent omission — the cell is
still converted and the run still writes its output). -/
theorem C8_thm (env : PyEnv) (stem : String) (g outG : List Triple) (aln cell subj obj m : Node)
    (hw : convert_graph env stem g = ConvertResult.wrote outG)
    (haln : aln ∈ alignmentsOf g (find_predicates_and_classes g).alignment_class)
    (hcell : cell ∈ objectsOpt g aln (find_predicates_and_classes g).map)
    (he1 : valueOpt g cell (find_predicates_and_classes g).entity1 = some subj)
    (he2 : valueOpt g cell (find_predicates_and_classes g).entity2 = some obj)
    (hm : valueOpt g cell (find_predicates_and_classes g).measure = some m) :
    (∀ lex, env.float (pyStr m) = some lex →
      Triple.mk (mapping_node_of env (mapping_set_iri_of stem)
          (cid_str_of (valueOpt g cell (find_predicates_and_classes g).cid)) subj obj)
        SSSOM_confidence (Node.lit lex (some XSD_double)) ∈ outG) ∧
    (env.float (pyStr m) = none →
      ∀ (st : ConvState) (n x : Node),
        Triple.mk n SSSOM_confidence x ∈
          (processCell env g (find_predicates_and_classes g)
            (mapping_set_iri_of stem) st cell).g_out →
        Triple.mk n SSSOM_confidence x ∈ st.g_out) := by
  obtain ⟨-, -, hout⟩ := wrote_inversion hw
  subst hout
  constructor
  · intro lex hf
    exact cell_mem_convert_core haln hcell (confidence_mem_cellTriples he1 he2 hm hf)
  · intro hf st n x hmem
    rcases mem_processCell.mp hmem with hmem2 | hmem2
    · exact hmem2
    · exact absurd hmem2 (confidence_not_mem_cellTriples (fun m2 hm2 => by
        rw [hm2] at hm
        injection hm with hm3
        rw [← hm3] at hf
        exact hf))

/-- C8 (witness): the cell of `exGood` has measure 0.95, which parses
under `env0`, so its confidence triple is in the written graph. -/
theorem C8_witness :
    Triple.mk (mapping_node_of env0 (mapping_set_iri_of ("b"))
        (cid_str_of (valueOpt exGood exCell1 (find_predicates_and_classes exGood).cid)) exX exY)
      SSSOM_confidence (Node.lit ("0.95") (some XSD_double))
      ∈ outOf (convert_graph env0 ("b") exGood) :=
  ((C8_thm env0 ("b") exGood (outOf (convert_graph env0 ("b") exGood)) exAln exCell1 exX exY
    (Node.lit ("0.95") none) (by rfl) (by decide) (by decide) (by decide) (by decide)
    (by decide)).1) ("0.95") (by decide)

/-- C9: empty-string cid falls back to hash.  For a complete cell whose
cid value coerces to the empty string, the cell body behaves exactly as
if the cid role had not been discovered at all: the same state results,
the mapping node typed by this cell is the hash-fallback IRI, and no
record_id triple is added. -/
theorem C9_thm (env : PyEnv) (g : List Triple) (msi : String) (st : ConvState)
    (cell subj obj v : Node)
    (he1 : valueOpt g cell (find_predicates_and_classes g).entity1 = some subj)
    (he2 : valueOpt g cell (find_predicates_and_classes g).entity2 = some obj)
    (hcid : valueOpt g cell (find_predicates_and_classes g).cid = some v)
    (hv : pyStr v = "") :
    processCell env g (find_predicates_and_classes g) msi st cell =
      processCell env g { find_predicates_and_classes g with cid := none } msi st cell ∧
    Triple.mk (Node.uri (msi ++ "#m" ++ Nat.repr (Int.natAbs (env.hash (subj, obj)))))
        RDF_type SSSOM_Mapping ∈
      (processCell env g (find_predicates_and_classes g) msi st cell).g_out ∧
    (∀ n x : Node,
      Triple.mk n SSSOM_record_id x ∈
        (processCell env g (find_predicates_and_classes g) msi st cell).g_out →
      Triple.mk n SSSOM_record_id x ∈ st.g_out) := by
  have hcs : cid_str_of (valueOpt g cell (find_predicates_and_classes g).cid) = "" := by
    rw [hcid]
    cases v with
    | lit sv dt =>
      simp only [pyStr] at hv
      simp [cid_str_of, hv]
    | uri sv =>
      simp only [pyStr] at hv
      simp [cid_str_of, pyStr, hv]
    | blank sv =>
      simp only [pyStr] at hv
      simp [cid_str_of, pyStr, hv]
  refine ⟨?_, ?_, ?_⟩
  · exact processCell_cid_congr rfl rfl rfl rfl (by rw [hcs]; rfl)
  · rw [mem_processCell]
    right
    have hnode : cellMappingNode env g (find_predicates_and_classes g) msi cell =
        some (Node.uri (msi ++ "#m" ++ Nat.repr (Int.natAbs (env.hash (subj, obj))))) := by
      unfold cellMappingNode
      rw [he1, he2]
      dsimp only
      unfold mapping_node_of
      rw [if_pos hcs]
    exact type_mem_cellTriples.mpr hnode
  · intro n x hmem
    rcases mem_processCell.mp hmem with hmem2 | hmem2
    · exact hmem2
    · exact absurd hmem2 (record_id_not_mem_cellTriples hcs)

/-- C9 (witness): the empty-literal-cid cell of `exEmptyCid` types the
hash-fallback IRI `#m0`. -/
theorem C9_witness :
    Triple.mk (Node.uri (mapping_set_iri_of ("e") ++ "#m" ++
        Nat.repr (Int.natAbs (env0.hash (exX, exY)))))
      RDF_type SSSOM_Mapping ∈
      (processCell env0 exEmptyCid (find_predicates_and_classes exEmptyCid)
        (mapping_set_iri_of ("e")) (ConvState.mk [] [] none none) exCell1).g_out :=
  (C9_thm env0 exEmptyCid (mapping_set_iri_of ("e")) (ConvState.mk [] [] none none)
    exCell1 exX exY (Node.lit ("") none) (by decide) (by decide) (by decide) rfl).2.1

/-- C10: cell typing noninterference.  Two input graphs that agree after
removing all Cell-typing triples (rdf:type triples whose object's local
name ends in Cell) convert to exactly the same result: the discovered
Cell class is never consulted, and every resource reached from an
Alignment via the map predicate is processed as a cell regardless of
its rdf:type. -/
theorem C10_thm (env : PyEnv) (stem : String) (g1 g2 : List Triple)
    (h : g1.filter (fun t => !isCellTypeTriple t) = g2.filter (fun t => !isCellTypeTriple t)) :
    convert_graph env stem g1 = convert_graph env stem g2 := by
  rw [← convert_filter_invariant env stem g1, ← convert_filter_invariant env stem g2, h]

/-- C10 (witness): adding a Cell-typing triple to `exGood` leaves the
conversion result unchanged. -/
theorem C10_witness :
    convert_graph env0 ("b") exGoodTyped = convert_graph env0 ("b") exGood :=
  C10_thm env0 ("b") exGoodTyped exGood (by decide)

end EvolAlign
